import Mathlib

/-!
Shallow embedding of the sqlite3 "Worker API #1" message layer
(`src/ext/wasm/api/sqlite3-api-worker1.js`) and proofs about its
handle registry, dispatcher, and streaming-result sub-protocol.

The data-store engine (`sqlite3.oo1.DB` and the C API) is an external
collaborator of this layer; it is modelled from the spec as a behaviour
script (`Engine`), universally quantified in the theorems.
-/

namespace Worker1

/-- A row value produced by the engine. `null` is a legal row value for some
row modes; `val` stands for any other structured value. -/
inductive RowVal where
  | null
  | val (n : Nat)
deriving DecidableEq, Repr

/-- A value found in the `callback` property of `exec` options: a string tag,
the worker-installed row-posting closure (which captures the original string
tag), or some other truthy non-string value. A function value can never
arrive over the wire (structured clone refuses functions), so `installedFn`
only ever appears through the worker's own installation step. -/
inductive CbVal where
  | tag (s : String)
  | installedFn (s : String)
  | otherTruthy
deriving DecidableEq, Repr

/-- JS truthiness of a possibly-absent `callback` value: `undefined` and the
empty string are falsy, functions and other modelled values are truthy. -/
def cbTruthy : Option CbVal → Bool
  | none => false
  | some (.tag s) => !s.isEmpty
  | some (.installedFn _) => true
  | some (.otherTruthy) => true

/-- JS `instanceof Function` on a possibly-absent `callback` value. -/
def cbIsFn : Option CbVal → Bool
  | some (.installedFn _) => true
  | _ => false

/-- The string tag carried by a `callback` value (the worker only reads this
off values for which `typeof` is `string`, i.e. `tag`; the `installedFn`
case keeps the captured tag). -/
def cbTypeStr : Option CbVal → String
  | some (.tag s) => s
  | some (.installedFn s) => s
  | _ => ""

/-- JS truthiness of a possibly-absent string: `undefined` and `""` are
falsy. -/
def strTruthy : Option String → Bool
  | none => false
  | some s => !s.isEmpty

/-- A `sqlite3.oo1.DB` object as this layer observes it: `key` is the JS
object identity (fresh for every `new DB` allocation), `pointer` the
low-level address (truthy, i.e. nonzero, while the db is open; the engine
may reuse addresses across close/open cycles), `filename` the object's
resolved `filename` property. -/
structure DBObj where
  key : Nat
  pointer : Nat
  filename : String
deriving DecidableEq, Repr

/-- The structured-object fields that the three command handlers read off a
request's `args` value. -/
structure JObj where
  filename : Option String := none
  simulateError : Bool := false
  unlink : Bool := false
  sql : Option String := none
  rowMode : Option String := none
  callback : Option CbVal := none
  resultRows : Option (List RowVal) := none
deriving DecidableEq, Repr

/-- A request's `args` value: absent, a bare string, or a structured
object. -/
inductive ReqArgs where
  | absent
  | str (s : String)
  | obj (o : JObj)
deriving DecidableEq, Repr

/-- An inbound request envelope (`ev.data` in `self.onmessage`). The
correlation id `messageId` is opaque to the layer; it is modelled by an
optional number. -/
structure Request where
  type : String
  args : ReqArgs := .absent
  dbId : Option String := none
  messageId : Option Nat := none
  departureTime : Option Nat := none
deriving DecidableEq, Repr

/-- A Streaming Row Message posted by the installed `exec` row callback.
`rowNumber := none` models the JS `null` of the terminal message and
`row := none` models the JS `undefined` (absent row). -/
structure RowMsg where
  type : String
  rowNumber : Option Nat
  row : Option RowVal
deriving DecidableEq, Repr

/-- Result payload of the `config-get` handler. -/
structure ConfigRc where
  persistentDirName : Option String := none
  bigIntEnabled : Option Bool := none
  persistenceEnabled : Bool := false
deriving DecidableEq, Repr

/-- A thrown JS error as observed by the dispatcher's catch block:
`name` (errorClass) and `message`. -/
structure JsErr where
  name : String
  message : String
deriving DecidableEq, Repr

/-- `toss` (worker1.js line 60): `throw new Error(args.join(' '))`. -/
def toss (args : List String) : JsErr :=
  { name := "Error", message := String.intercalate " " args }

/-- A handler result payload, or the Error Payload synthesized by the
dispatcher's catch block (`operation`, `message`, `errorClass`, `input`). -/
inductive ResPayload where
  | openRc (filename : String) (persistent : Bool) (dbId : String)
  | closeRc (filename : Option String) (dbId : Option String)
  | execRc (rc : JObj)
  | configRc (rc : ConfigRc)
  | errorRc (operation : String) (message : String) (errorClass : String)
      (input : Request)
deriving DecidableEq, Repr

/-- Reading the `dbId` property off a result payload (JS `result.dbId`);
`undefined` for payload shapes without such a property. -/
def ResPayload.dbIdProp : ResPayload → Option String
  | .openRc _ _ id => some id
  | .closeRc _ id => id
  | _ => none

/-- An outbound response envelope. The two timing fields are the
`performance.now()` samples taken at arrival and at respond time. -/
structure Response where
  type : String
  dbId : Option String
  messageId : Option Nat
  workerReceivedTime : Nat
  workerRespondTime : Nat
  departureTime : Option Nat
  result : ResPayload
deriving DecidableEq, Repr

/-- A message posted by the worker: a streaming row message or a response
envelope. -/
inductive OutMsg where
  | row (m : RowMsg)
  | response (r : Response)
deriving DecidableEq, Repr

/-- Modelled from the spec: the data-store engine collaborator (the
`sqlite3.oo1` API and C helpers are outside this layer). Its behaviour is an
arbitrary script indexed by call counters:
`openBeh k fname` decides the k-th `new DB(fname)` call (throw, or yield a
pointer and a resolved filename property); `execBeh k` decides the k-th
`db.exec` call (the rows it feeds one at a time to a function-valued
`options.callback`, then normal return (`none`) or a thrown error);
`execResRows k` is what that call appends to a caller-supplied
`options.resultRows` array; `pDir` is `sqlite3_web_persistent_dir()` with
`""` for falsy; the `cfg` fields model `sqlite3.config`. -/
structure Engine where
  pDir : String := ""
  openBeh : Nat → String → Except JsErr (Nat × String)
  execBeh : Nat → List RowVal × Option JsErr
  execResRows : Nat → List RowVal := fun _ => []
  cfgPersistentDirName : Option String := none
  cfgBigIntEnabled : Option Bool := none

/-- Worker-level state (worker1.js `wState`): the default db, the id
sequence, the WeakMap from db object identity to id, the transfer list
(contents opaque here), and the map of DB IDs to DBs. -/
structure WState where
  defaultDb : Option DBObj := none
  idSeq : Nat := 0
  idMap : List (Nat × String) := []
  xfer : List Nat := []
  dbs : List (String × DBObj) := []
deriving DecidableEq, Repr

/-- The whole system state: worker state plus the engine call counters
(`nOpens` is also the JS allocation clock supplying fresh object
identities) and the trace of unlinked filenames. -/
structure Sys where
  st : WState := {}
  nOpens : Nat := 0
  nExecs : Nat := 0
  unlinked : List String := []
deriving DecidableEq, Repr

/-- The identifier string minted for sequence number `seq` and pointer
`ptr`: `'db#'+(++wState.idSeq)+'@'+db.pointer`. -/
def mkDbId (seq ptr : Nat) : String :=
  "db#" ++ Nat.repr seq ++ "@" ++ Nat.repr ptr

/-- `getDbId` (worker1.js lines 73-82): returns the app-wide unique ID for
the given db, creating one if needed. The id cannot simply be the pointer
because closing/opening may reuse the same address. -/
def getDbId (st : WState) (db : DBObj) : String × WState :=
  let id0 := st.idMap.lookup db.key
  if strTruthy id0 then (id0.getD "", st)
  else
    let seq := st.idSeq + 1
    let id := mkDbId seq db.pointer
    (id, { st with idSeq := seq, idMap := (db.key, id) :: st.idMap })

/-- JS property assignment `m[k] = v` on a string-keyed object map. -/
def assocSet (m : List (String × DBObj)) (k : String) (v : DBObj) :
    List (String × DBObj) :=
  (k, v) :: m.filter (fun p => p.1 != k)

/-- JS `delete m[k]` on a string-keyed object map. -/
def assocDel (m : List (String × DBObj)) (k : String) :
    List (String × DBObj) :=
  m.filter (fun p => p.1 != k)

/-- `wState.open` (worker1.js lines 92-97): `new DB(opt.filename)`, record
the id mapping, designate the db as default if no default is set. A throw
from the constructor propagates (`.error`); the allocation clock still
advanced. -/
def wOpen (eng : Engine) (s : Sys) (filename : String) :
    Except JsErr DBObj × Sys :=
  let k := s.nOpens
  let s1 := { s with nOpens := k + 1 }
  match eng.openBeh k filename with
  | .error e => (.error e, s1)
  | .ok (ptr, fname) =>
    let db : DBObj := { key := k, pointer := ptr, filename := fname }
    let id := (getDbId s1.st db).1
    let st1 := (getDbId s1.st db).2
    let st2 := { st1 with dbs := assocSet st1.dbs id db }
    let st3 := if st2.defaultDb.isNone then { st2 with defaultDb := some db }
               else st2
    (.ok db, { s1 with st := st3 })

/-- `wState.close` (worker1.js lines 98-108): remove the id mapping, close
the db, clear the default if the closed db was the default, best-effort
unlink when requested (recorded in `Sys.unlinked`). -/
def wClose (s : Sys) (db : Option DBObj) (alsoUnlink : Bool) : Sys :=
  match db with
  | none => s
  | some db =>
    let id := (getDbId s.st db).1
    let st1 := (getDbId s.st db).2
    let st2 := { st1 with dbs := assocDel st1.dbs id }
    let filename := db.filename
    let st3 := if st2.defaultDb = some db then { st2 with defaultDb := none }
               else st2
    { s with st := st3,
             unlinked := s.unlinked ++
               (if alsoUnlink && !filename.isEmpty then [filename] else []) }

/-- The string the `toss` in `wState.getDb` renders for the id argument
(JS `Array.join` stringification; `undefined` when absent). -/
def idToMsg : Option String → String
  | none => "undefined"
  | some s => s

/-- `wState.getDb` (worker1.js lines 125-128). -/
def wGetDb (st : WState) (id : Option String) (req : Bool) :
    Except JsErr (Option DBObj) :=
  match id.bind (fun i => st.dbs.lookup i) with
  | some db => .ok (some db)
  | none =>
    if req then .error (toss ["Unknown (or closed) DB ID:", idToMsg id])
    else .ok none

/-- `affirmDbOpen` (worker1.js lines 131-134): throws if the db is falsy or
its pointer is falsy. -/
def affirmDbOpen (db : Option DBObj) : Except JsErr DBObj :=
  match db with
  | some db =>
    if db.pointer != 0 then .ok db else .error (toss ["DB is not opened."])
  | none => .error (toss ["DB is not opened."])

/-- `getMsgDb` (worker1.js lines 137-140): look the message's dbId up
without requiring it, fall back to the default db, then optionally affirm
the result is an open db. -/
def getMsgDb (st : WState) (dbId : Option String) (affirmExists : Bool) :
    Except JsErr (Option DBObj) :=
  match wGetDb st dbId false with
  | .error e => .error e
  | .ok found =>
    let db := match found with
              | some d => some d
              | none => st.defaultDb
    if affirmExists then (affirmDbOpen db).map (fun d => some d)
    else .ok db

/-- `getDefaultDbId` (worker1.js lines 142-144):
`wState.defaultDb && getDbId(wState.defaultDb)`. -/
def getDefaultDbId (st : WState) : Option String × WState :=
  match st.defaultDb with
  | none => (none, st)
  | some db => (some (getDbId st db).1, (getDbId st db).2)

/-- The structured-object view of a request's `args` used by `open`: reading
properties off a non-object yields `undefined` throughout, so it behaves as
the empty object. -/
def argsObj (args : ReqArgs) : JObj :=
  match args with
  | .obj o => o
  | _ => {}

/-- The filename the `open` handler passes to the engine (worker1.js lines
194-201): falsy filenames become `""`, `":memory:"` is kept verbatim, and a
real name is prefixed with the persistent dir when one is available. -/
def openFilename (eng : Engine) (args : JObj) : String :=
  let pDir := eng.pDir
  let afn := args.filename.getD ""
  if !(strTruthy args.filename) || args.filename = some ":memory:" then
    afn
  else if !pDir.isEmpty then
    pDir ++ (if afn.startsWith "/" then afn else "/" ++ afn)
  else afn

/-- `wMsgHandler.open` (worker1.js lines 188-207). When `args` is not an
object, every property read on it yields `undefined`, so it behaves as the
empty object. -/
def hOpen (eng : Engine) (s : Sys) (ev : Request) :
    Except JsErr ResPayload × Sys :=
  let args := argsObj ev.args
  if args.simulateError then
    (.error (toss ["Throwing because of simulateError flag."]), s)
  else
    let pDir := eng.pDir
    let fn := openFilename eng args
    match wOpen eng s fn with
    | (.error e, s1) => (.error e, s1)
    | (.ok db, s1) =>
      let rcFilename := db.filename
      let rcPersistent := !pDir.isEmpty && db.filename.startsWith pDir
      let id := (getDbId s1.st db).1
      (.ok (.openRc rcFilename rcPersistent id), { s1 with st := (getDbId s1.st db).2 })

/-- `wMsgHandler.close` (worker1.js lines 225-236): resolve the db without
affirming, report its filename and id (both absent when no db resolved),
then close it if one resolved; the `unlink` flag is read only off an
object-typed `args`. -/
def hClose (s : Sys) (ev : Request) : Except JsErr ResPayload × Sys :=
  match getMsgDb s.st ev.dbId false with
  | .error e => (.error e, s)
  | .ok dbO =>
    let respFilename := dbO.map (fun d => d.filename)
    let respId : Option String :=
      match dbO with
      | none => none
      | some db => some (getDbId s.st db).1
    let st1 :=
      match dbO with
      | none => s.st
      | some db => (getDbId s.st db).2
    let s1 := { s with st := st1 }
    let unlinkFlag := match ev.args with
      | .obj o => o.unlink
      | _ => false
    let s2 := wClose s1 dbO unlinkFlag
    (.ok (.closeRc respFilename respId), s2)

/-- Outcome of `wMsgHandler.exec`: the result (or thrown error), the options
object `rc` after all in-place mutations (including the `finally` block),
whether `rc` is the very object the request's `args` carried (so the
mutations are visible through `ev.args`), the messages posted during the
handler, and the successor state. -/
structure ExecOut where
  result : Except JsErr ResPayload
  rcFinal : JObj
  aliased : Bool
  posted : List OutMsg
  sys : Sys
deriving Repr

/-- The row messages the installed callback posts for the rows the engine
feeds it: `{type: tag, rowNumber: ++rowNumber, row: row}` with a 1-based
counter. -/
def rowPostsOf (tag : String) (rows : List RowVal) : List OutMsg :=
  (List.range rows.length).zipWith
    (fun i r => OutMsg.row { type := tag, rowNumber := some (i + 1), row := some r })
    rows

/-- The options object `exec` starts from (worker1.js lines 280-282): a
bare-string `args` becomes `{sql: args}`, an absent `args` a fresh empty
object, an object `args` is used (and mutated) in place. -/
def execRc0 (args : ReqArgs) : JObj :=
  match args with
  | .str q => { sql := some q }
  | .obj o => o
  | .absent => {}

/-- Whether the `exec` options object is the very object `ev.args` carried
(so in-place mutations are visible through the request object). -/
def execAliased (args : ReqArgs) : Bool :=
  match args with
  | .obj _ => true
  | _ => false

/-- The rowMode defaulting / rejection step of `exec` (worker1.js lines
283-291): an absent rowMode becomes `'array'`; `'stmt'` is rejected. -/
def execModeCheck (rc0 : JObj) : Except JsErr JObj :=
  if rc0.rowMode = none then .ok { rc0 with rowMode := some "array" }
  else if rc0.rowMode = some "stmt" then
    .error (toss ["Invalid rowMode for 'exec': stmt mode",
                  "does not work in the Worker API."])
  else .ok rc0

/-- The engine's in-place mutation of `options.resultRows` during
`db.exec`: rows are appended when the caller supplied an array, and the
property stays absent otherwise. -/
def mutResultRows : Option (List RowVal) → List RowVal → Option (List RowVal)
  | some rr, new => some (rr ++ new)
  | none, _ => none

/-- The body of `exec` once the db is resolved (worker1.js lines 293-317):
install the posting closure when the callback is a string, run the engine
call (which feeds rows to a function-valued callback and may throw), post
the terminal message on success when a closure was installed, and restore a
truthy callback in the `finally` block. `db._blobXfer` aliasing is a
blob-copy-avoidance detail whose contents this model keeps opaque. -/
def hExecRun (eng : Engine) (s : Sys) (rc1 : JObj) (aliased : Bool) : ExecOut :=
  let callbackMsgType := rc1.callback
  let installed : Option String := match callbackMsgType with
    | some (.tag t) => some t
    | _ => none
  let rc2 := match installed with
    | some t => { rc1 with callback := some (.installedFn t) }
    | none => rc1
  let beh := eng.execBeh s.nExecs
  let rows := beh.1
  -- the engine feeds each produced row to rc.callback when it is a
  -- function; only the worker-installed closure posts messages
  let rowPosts : List OutMsg := match installed with
    | some t => rowPostsOf t rows
    | none => []
  -- each row post hands wState.xfer to postMessage, clearing it
  let st1 := if rowPosts.length != 0 && s.st.xfer.length != 0 then
      { s.st with xfer := [] }
    else s.st
  let rc3 := { rc2 with resultRows := mutResultRows rc2.resultRows (eng.execResRows s.nExecs) }
  let s1 : Sys := { s with st := st1, nExecs := s.nExecs + 1 }
  match beh.2 with
  | none =>
    let restored := cbIsFn rc3.callback
    let rc4 := if restored then { rc3 with callback := callbackMsgType }
               else rc3
    let endPosts : List OutMsg := if restored then
        [OutMsg.row { type := cbTypeStr callbackMsgType, rowNumber := none,
                      row := none }]
      else []
    let rc5 := if cbTruthy rc4.callback then
        { rc4 with callback := callbackMsgType }
      else rc4
    { result := .ok (.execRc rc5), rcFinal := rc5, aliased := aliased,
      posted := rowPosts ++ endPosts, sys := s1 }
  | some e =>
    let rc5 := if cbTruthy rc3.callback then
        { rc3 with callback := callbackMsgType }
      else rc3
    { result := .error e, rcFinal := rc5, aliased := aliased,
      posted := rowPosts, sys := s1 }

/-- `wMsgHandler.exec` (worker1.js lines 279-318): build the options object,
default or reject the rowMode, resolve the db (affirming it is open), then
run the engine call with the streaming adapter (`hExecRun`). -/
def hExec (eng : Engine) (s : Sys) (ev : Request) : ExecOut :=
  let rc0 := execRc0 ev.args
  let aliased := execAliased ev.args
  match execModeCheck rc0 with
  | .error e =>
    { result := .error e, rcFinal := rc0, aliased := aliased, posted := [],
      sys := s }
  | .ok rc1 =>
    match getMsgDb s.st ev.dbId true with
    | .error e =>
      { result := .error e, rcFinal := rc1, aliased := aliased,
        posted := [], sys := s }
    | .ok none =>
      -- unreachable: affirmExists guarantees a db
      { result := .error (toss ["DB is not opened."]), rcFinal := rc1,
        aliased := aliased, posted := [], sys := s }
    | .ok (some _db) => hExecRun eng s rc1 aliased

/-- `wMsgHandler['config-get']` (worker1.js lines 334-343): a filtered copy
of `sqlite3.config` plus a synthesized persistence flag. -/
def hConfigGet (eng : Engine) : ConfigRc :=
  { persistentDirName := eng.cfgPersistentDirName,
    bigIntEnabled := eng.cfgBigIntEnabled,
    persistenceEnabled := !eng.pDir.isEmpty }

/-- The dispatch step of `self.onmessage` (worker1.js lines 436-442): look
the inbound type up in `wMsgHandler` and run the handler. Yields the
handler's result or thrown error, the successor state, the messages the
handler posted, and the `ev` object as it stands after the handler ran
(`exec` mutates an object-typed `ev.args` in place). -/
def dispatchEv (eng : Engine) (s : Sys) (ev : Request) :
    Except JsErr ResPayload × Sys × List OutMsg × Request :=
  let evType := ev.type
  if evType = "open" then
      let p := hOpen eng s ev
      (p.1, p.2, [], ev)
    else if evType = "close" then
      let p := hClose s ev
      (p.1, p.2, [], ev)
    else if evType = "exec" then
      let o := hExec eng s ev
      let evA := if o.aliased then { ev with args := .obj o.rcFinal } else ev
      (o.result, o.sys, o.posted, evA)
    else if evType = "config-get" then
      (.ok (.configRc (hConfigGet eng)), s, [], ev)
    else if evType = "export" then
      (.error (toss ["export() requires reimplementing for portability reasons."]),
       s, [], ev)
    else if evType = "toss" then
      (.error (toss ["Testing worker exception"]), s, [], ev)
    else
      (.error (toss ["Unknown db worker message type:", ev.type]), s, [], ev)

/-- The dispatcher's catch block (worker1.js lines 443-457): a handler
result passes through under the inbound type; a thrown error forces the
outbound type to `error` and synthesizes the Error Payload, whose `input` is
the request object as it stands after the handler ran. -/
def catchRes (ev evA : Request) (resE : Except JsErr ResPayload) :
    String × ResPayload :=
  match resE with
  | .ok payload => (ev.type, payload)
  | .error e => ("error", .errorRc ev.type e.message e.name evA)

/-- The dispatcher's outbound dbId resolution (worker1.js lines 458-461):
`if(!dbId){ dbId = result.dbId || getDefaultDbId(); }`. -/
def resolveDbId (dbId0 : Option String) (result : ResPayload) (st : WState) :
    Option String × WState :=
  if strTruthy dbId0 then (dbId0, st)
  else
    let rid := result.dbIdProp
    if strTruthy rid then (rid, st)
    else getDefaultDbId st

/-- `self.onmessage` (worker1.js lines 432-479). `t1` and `t2` model the two
`performance.now()` samples. Returns the successor state and the messages
posted while serving this one inbound message, the response envelope last. -/
def onmessage (eng : Engine) (s : Sys) (ev : Request) (t1 t2 : Nat) :
    Sys × List OutMsg :=
  let dbId0 := ev.dbId
  let r := dispatchEv eng s ev
  let resE := r.1
  let s1 := r.2.1
  let posted := r.2.2.1
  let evA := r.2.2.2
  let caught := catchRes ev evA resE
  let evType2 := caught.1
  let result := caught.2
  let resolved := resolveDbId dbId0 result s1.st
  let dbId1 := resolved.1
  let st2 := resolved.2
  let resp : Response :=
    { type := evType2, dbId := dbId1, messageId := ev.messageId,
      workerReceivedTime := t1, workerRespondTime := t2,
      departureTime := ev.departureTime, result := result }
  let st3 := if st2.xfer.length != 0 then { st2 with xfer := [] } else st2
  ({ s1 with st := st3 }, posted ++ [OutMsg.response resp])

/-- A whole served trace: the worker handles the queued inbound messages
strictly in order, one at a time. -/
def run (eng : Engine) (s : Sys) : List (Request × Nat × Nat) → Sys × List OutMsg
  | [] => (s, [])
  | (ev, t1, t2) :: rest =>
    let p := onmessage eng s ev t1 t2
    let q := run eng p.1 rest
    (q.1, p.2 ++ q.2)

/-- The initial system state, as set up by `initWorker1API`. -/
def initSys : Sys := {}

/-- The response envelopes among a list of posted messages. -/
def responsesOf (msgs : List OutMsg) : List Response :=
  msgs.filterMap (fun m => match m with
    | .response r => some r
    | _ => none)

/-- The handle identifiers returned by successful `open` responses. -/
def openedIds (msgs : List OutMsg) : List String :=
  msgs.filterMap (fun m => match m with
    | .response r =>
      match r.result with
      | .openRc _ _ id => some id
      | _ => none
    | _ => none)

/-- The spec's description of the streamed row messages for tag `t` and
produced rows `rows`: the i-th message carries sequence number `i+1` and the
i-th row. Stated independently of the implementation's posting loop, for
comparison with it. -/
def rowMsgsSpec (t : String) (rows : List RowVal) : List OutMsg :=
  (List.range rows.length).map
    (fun i => OutMsg.row { type := t, rowNumber := some (i + 1), row := rows.get? i })

/-- Recognizes the terminal Streaming Row Message of stream `t` (sequence
number null, row absent). -/
def isTerminalRow (t : String) (m : OutMsg) : Bool :=
  m = OutMsg.row { type := t, rowNumber := none, row := none }

/-- Reading a decimal digit string back as a number. -/
def parse10 (l : List Char) : Nat :=
  l.foldl (fun a c => a * 10 + (c.toNat - 48)) 0

/-- The sequence-number component of a minted identifier string
`db#<seq>@<ptr>`: the digits between `db#` and the first non-digit. -/
def seqOf (s : String) : Nat :=
  parse10 ((s.data.drop 3).takeWhile Char.isDigit)

/-- A test engine whose k-th open succeeds with pointer `1000 + k` and the
requested filename, and whose exec calls produce no rows and succeed. -/
def engOk : Engine :=
  { openBeh := fun k f => .ok (1000 + k, f),
    execBeh := fun _ => ([], none) }

/-- A test engine whose opens succeed and whose exec calls feed one row to
the callback and then throw. -/
def engRowThenFail : Engine :=
  { openBeh := fun k f => .ok (1000 + k, f),
    execBeh := fun _ => ([RowVal.val 7], some { name := "SQLite3Error", message := "boom" }) }

/-- A test engine whose opens succeed and whose exec calls feed two rows to
the callback and succeed. -/
def engTwoRows : Engine :=
  { openBeh := fun k f => .ok (1000 + k, f),
    execBeh := fun _ => ([RowVal.val 7, RowVal.null], none) }

/-- A test engine whose open primitive always throws. -/
def engOpenFail : Engine :=
  { openBeh := fun _ _ => .error { name := "SQLite3Error",
                                   message := "unable to open database file" },
    execBeh := fun _ => ([], none) }

/-- An `open` request for filename `x.db`. -/
def evOpenX : Request := { type := "open", args := .obj { filename := some "x.db" } }

/-- The state after serving one successful `open` from the initial state:
one open handle `db#1@1000`, designated as default. -/
def sysOne : Sys := (onmessage engOk initSys evOpenX 0 0).1



/-- Decidable equality for `Except`, used to evaluate the model on concrete
inputs. -/
instance exceptDecEq {ε α : Type} [DecidableEq ε] [DecidableEq α] :
    DecidableEq (Except ε α) := fun x y =>
  match x, y with
  | .ok a, .ok b =>
    if h : a = b then isTrue (by rw [h])
    else isFalse (by intro hc; cases hc; exact h rfl)
  | .error e, .error f =>
    if h : e = f then isTrue (by rw [h])
    else isFalse (by intro hc; cases hc; exact h rfl)
  | .ok _, .error _ => isFalse (by intro hc; cases hc)
  | .error _, .ok _ => isFalse (by intro hc; cases hc)

/-- All object keys recorded in a worker state are below the allocation
clock bound `n`. -/
def KeysLt (st : WState) (n : Nat) : Prop :=
  (∀ kv ∈ st.idMap, kv.1 < n) ∧ (∀ p ∈ st.dbs, p.2.key < n) ∧
  (∀ d : DBObj, st.defaultDb = some d → d.key < n)

/-- The reachability invariant: every key recorded in the registry names a
past allocation. -/
def Inv (s : Sys) : Prop := KeysLt s.st s.nOpens

/-! ## Helper lemmas -/

/-! Identifier-string arithmetic: a minted id `db#<seq>@<ptr>` determines its
sequence number, because the decimal digits of `seq` contain no `@`. -/

theorem digitChar_isDigit {m : Nat} (h : m < 10) :
    (Nat.digitChar m).isDigit = true := by
  interval_cases m <;> decide

theorem digitChar_toNat {m : Nat} (h : m < 10) :
    (Nat.digitChar m).toNat - 48 = m := by
  interval_cases m <;> decide

theorem toDigitsCore_acc (f : Nat) :
    ∀ (n : Nat) (acc : List Char),
      Nat.toDigitsCore 10 f n acc = Nat.toDigitsCore 10 f n [] ++ acc := by
  induction f with
  | zero => intro n acc; simp [Nat.toDigitsCore]
  | succ f ih =>
    intro n acc
    simp only [Nat.toDigitsCore]
    by_cases h : n / 10 = 0
    · simp [h]
    · simp only [h, if_false]
      rw [ih (n / 10) (Nat.digitChar (n % 10) :: acc),
          ih (n / 10) [Nat.digitChar (n % 10)]]
      simp

theorem toDigitsCore_digits (f : Nat) :
    ∀ (n : Nat) (acc : List Char), (∀ c ∈ acc, c.isDigit = true) →
      ∀ c ∈ Nat.toDigitsCore 10 f n acc, c.isDigit = true := by
  induction f with
  | zero => intro n acc hacc; simpa [Nat.toDigitsCore] using hacc
  | succ f ih =>
    intro n acc hacc
    simp only [Nat.toDigitsCore]
    have hd : (Nat.digitChar (n % 10)).isDigit = true :=
      digitChar_isDigit (Nat.mod_lt _ (by norm_num))
    by_cases h : n / 10 = 0
    · simp only [h, if_true]
      intro c hc
      rcases List.mem_cons.mp hc with h1 | h1
      · exact h1 ▸ hd
      · exact hacc c h1
    · simp only [h, if_false]
      refine ih (n / 10) _ ?_
      intro c hc
      rcases List.mem_cons.mp hc with h1 | h1
      · exact h1 ▸ hd
      · exact hacc c h1

theorem parse10_append_one (l : List Char) (c : Char) :
    parse10 (l ++ [c]) = parse10 l * 10 + (c.toNat - 48) := by
  simp [parse10, List.foldl_append]

theorem parse10_toDigitsCore :
    ∀ (n f : Nat), n < f → parse10 (Nat.toDigitsCore 10 f n []) = n := by
  intro n
  induction n using Nat.strong_induction_on with
  | _ n ih =>
    intro f hf
    match f, hf with
    | f + 1, hf =>
      simp only [Nat.toDigitsCore]
      by_cases h : n / 10 = 0
      · have hn : n < 10 := by omega
        have hmod : n % 10 = n := Nat.mod_eq_of_lt hn
        simp only [h, if_true, hmod]
        simp only [parse10, List.foldl]
        rw [Nat.zero_mul, Nat.zero_add]
        exact digitChar_toNat hn
      · have hn : 10 ≤ n := by
          by_contra hc
          exact h (Nat.div_eq_of_lt (by omega))
        simp only [h, if_false]
        rw [toDigitsCore_acc, parse10_append_one]
        have h1 : n / 10 < n := Nat.div_lt_self (by omega) (by norm_num)
        have h2 : n / 10 < f := by omega
        rw [ih (n / 10) h1 f h2, digitChar_toNat (Nat.mod_lt _ (by norm_num))]
        omega

theorem parse10_repr (n : Nat) : parse10 (Nat.repr n).data = n := by
  have : (Nat.repr n).data = Nat.toDigits 10 n := rfl
  rw [this]
  exact parse10_toDigitsCore n (n + 1) (Nat.lt_succ_self n)

theorem repr_digits (n : Nat) : ∀ c ∈ (Nat.repr n).data, c.isDigit = true := by
  have : (Nat.repr n).data = Nat.toDigits 10 n := rfl
  rw [this]
  exact toDigitsCore_digits (n + 1) n [] (by intro c hc; cases hc)

theorem takeWhile_append_all {p : Char → Bool} :
    ∀ (l₁ l₂ : List Char), (∀ c ∈ l₁, p c = true) →
      (l₁ ++ l₂).takeWhile p = l₁ ++ l₂.takeWhile p := by
  intro l₁
  induction l₁ with
  | nil => intro l₂ _; simp
  | cons c l ih =>
    intro l₂ h
    have hc : p c = true := h c (List.mem_cons_self c l)
    simp [List.takeWhile, hc, ih l₂ (fun d hd => h d (List.mem_cons_of_mem c hd))]

theorem seqOf_mkDbId (n p : Nat) : seqOf (mkDbId n p) = n := by
  have hdata : (mkDbId n p).data =
      'd' :: 'b' :: '#' :: ((Nat.repr n).data ++ '@' :: (Nat.repr p).data) := by
    simp [mkDbId, String.data_append]
  rw [seqOf, hdata]
  simp only [List.drop]
  rw [takeWhile_append_all _ _ (repr_digits n)]
  have : List.takeWhile Char.isDigit ('@' :: (Nat.repr p).data) = [] := by
    simp [List.takeWhile]
  rw [this, List.append_nil, parse10_repr]

theorem mkDbId_ne {n₁ p₁ n₂ p₂ : Nat} (h : n₁ ≠ n₂) :
    mkDbId n₁ p₁ ≠ mkDbId n₂ p₂ := by
  intro hc
  exact h (by rw [← seqOf_mkDbId n₁ p₁, hc, seqOf_mkDbId])

theorem mkDbId_not_empty (n p : Nat) : (mkDbId n p).isEmpty = false := by
  have hdata : (mkDbId n p).data =
      'd' :: 'b' :: '#' :: ((Nat.repr n).data ++ '@' :: (Nat.repr p).data) := by
    simp [mkDbId, String.data_append]
  by_contra h
  have h2 : mkDbId n p = "" := (String.isEmpty_iff _).mp (by simpa using h)
  rw [h2] at hdata
  exact absurd hdata (by simp [String.data])


/-! ## Streaming and dispatch lemmas, claim theorems -/

theorem zipWith_row_mem {α β : Type} {f : α → β → RowMsg} :
    ∀ {l1 : List α} {l2 : List β} {m : OutMsg},
      m ∈ List.zipWith (fun i r => OutMsg.row (f i r)) l1 l2 →
      ∃ rm, m = OutMsg.row rm := by
  intro l1
  induction l1 with
  | nil => intro l2 m hm; simp at hm
  | cons a l ih =>
    intro l2 m hm
    cases l2 with
    | nil => simp at hm
    | cons b l2 =>
      rcases List.mem_cons.mp hm with h | h
      · exact ⟨_, h⟩
      · exact ih h

theorem rowPostsOf_rows {t : String} {rows : List RowVal} {m : OutMsg}
    (hm : m ∈ rowPostsOf t rows) : ∃ rm, m = OutMsg.row rm := by
  rw [rowPostsOf] at hm
  exact zipWith_row_mem hm

theorem hExecRun_posted_rows (eng : Engine) (s : Sys) (rc1 : JObj) (a : Bool) :
    ∀ m ∈ (hExecRun eng s rc1 a).posted, ∃ rm, m = OutMsg.row rm := by
  intro m hm
  rw [hExecRun] at hm
  rcases hbeh : (eng.execBeh s.nExecs).2 with _ | e <;>
      rcases hcb : rc1.callback with _ | (t | t | _) <;>
      simp only [hbeh, hcb, cbIsFn] at hm <;>
      first
        | (rcases List.mem_append.mp hm with hm | hm
           · exact rowPostsOf_rows hm
           · exact ⟨_, List.mem_singleton.mp hm⟩)
        | exact ⟨_, List.mem_singleton.mp hm⟩
        | exact rowPostsOf_rows hm
        | cases hm

theorem hExec_posted_rows (eng : Engine) (s : Sys) (ev : Request) :
    ∀ m ∈ (hExec eng s ev).posted, ∃ rm, m = OutMsg.row rm := by
  intro m hm
  rw [hExec] at hm
  rcases hmc : execModeCheck (execRc0 ev.args) with e | rc1 <;>
    simp only [hmc] at hm
  · cases hm
  rcases hdb : getMsgDb s.st ev.dbId true with e | dbO <;>
    simp only [hdb] at hm
  · cases hm
  rcases dbO with _ | db <;> simp only at hm
  · cases hm
  · exact hExecRun_posted_rows eng s rc1 _ m hm

theorem dispatchEv_posted_rows (eng : Engine) (s : Sys) (ev : Request) :
    ∀ m ∈ (dispatchEv eng s ev).2.2.1, ∃ rm, m = OutMsg.row rm := by
  intro m hm
  rw [dispatchEv] at hm
  split at hm
  · exact absurd hm (List.not_mem_nil m)
  split at hm
  · exact absurd hm (List.not_mem_nil m)
  split at hm
  · exact hExec_posted_rows eng s ev m hm
  split at hm
  · exact absurd hm (List.not_mem_nil m)
  split at hm
  · exact absurd hm (List.not_mem_nil m)
  split at hm
  · exact absurd hm (List.not_mem_nil m)
  · exact absurd hm (List.not_mem_nil m)

theorem onmessage_msgs_shape (eng : Engine) (s : Sys) (ev : Request) (t1 t2 : Nat) :
    ∃ rsp : Response,
      (onmessage eng s ev t1 t2).2 = (dispatchEv eng s ev).2.2.1 ++ [OutMsg.response rsp] ∧
      rsp.messageId = ev.messageId ∧
      rsp.departureTime = ev.departureTime ∧
      rsp.workerReceivedTime = t1 ∧
      rsp.workerRespondTime = t2 ∧
      rsp.type = (catchRes ev (dispatchEv eng s ev).2.2.2 (dispatchEv eng s ev).1).1 ∧
      rsp.result = (catchRes ev (dispatchEv eng s ev).2.2.2 (dispatchEv eng s ev).1).2 ∧
      rsp.dbId = (resolveDbId ev.dbId rsp.result (dispatchEv eng s ev).2.1.st).1 ∧
      (onmessage eng s ev t1 t2).1.st =
        (if ((resolveDbId ev.dbId rsp.result (dispatchEv eng s ev).2.1.st).2).xfer.length != 0
         then { ((resolveDbId ev.dbId rsp.result (dispatchEv eng s ev).2.1.st).2) with xfer := [] }
         else ((resolveDbId ev.dbId rsp.result (dispatchEv eng s ev).2.1.st).2)) ∧
      (onmessage eng s ev t1 t2).1.nOpens = (dispatchEv eng s ev).2.1.nOpens ∧
      (onmessage eng s ev t1 t2).1.nExecs = (dispatchEv eng s ev).2.1.nExecs ∧
      (onmessage eng s ev t1 t2).1.unlinked = (dispatchEv eng s ev).2.1.unlinked :=
  ⟨_, rfl, rfl, rfl, rfl, rfl, rfl, rfl, rfl, rfl, rfl, rfl, rfl⟩

theorem responsesOf_rows_nil {l : List OutMsg}
    (h : ∀ m ∈ l, ∃ rm, m = OutMsg.row rm) : responsesOf l = [] := by
  rw [responsesOf, List.filterMap_eq_nil_iff]
  intro m hm
  obtain ⟨rm, rfl⟩ := h m hm
  rfl

/-- C9: every response envelope mirrors its request's correlation id
exactly, including an absent one, and each inbound message yields exactly
one response envelope. -/
theorem response_messageId_mirrors (eng : Engine) (s : Sys) (ev : Request) (t1 t2 : Nat) :
    ∃ r : Response, responsesOf (onmessage eng s ev t1 t2).2 = [r] ∧
      r.messageId = ev.messageId := by
  obtain ⟨rsp, hm, hmid, _⟩ := onmessage_msgs_shape eng s ev t1 t2
  refine ⟨rsp, ?_, hmid⟩
  rw [hm, responsesOf, List.filterMap_append]
  have h1 := responsesOf_rows_nil (dispatchEv_posted_rows eng s ev)
  rw [responsesOf] at h1
  rw [h1]
  rfl

theorem dispatchEv_exec (eng : Engine) (s : Sys) (ev : Request) (hty : ev.type = "exec") :
    dispatchEv eng s ev =
      ((hExec eng s ev).result, (hExec eng s ev).sys, (hExec eng s ev).posted,
       if (hExec eng s ev).aliased then { ev with args := ReqArgs.obj (hExec eng s ev).rcFinal }
       else ev) := by
  rw [dispatchEv, hty]
  rfl

theorem dispatchEv_open (eng : Engine) (s : Sys) (ev : Request) (hty : ev.type = "open") :
    dispatchEv eng s ev = ((hOpen eng s ev).1, (hOpen eng s ev).2, [], ev) := by
  rw [dispatchEv, hty]
  rfl

theorem dispatchEv_close (eng : Engine) (s : Sys) (ev : Request) (hty : ev.type = "close") :
    dispatchEv eng s ev = ((hClose s ev).1, (hClose s ev).2, [], ev) := by
  rw [dispatchEv, hty]
  rfl

/-- C7: `exec` with `'stmt'` rowMode fails with the unsupported-mode error. -/
theorem exec_stmt_mode_fails (eng : Engine) (s : Sys) (ev : Request) (o : JObj)
    (t1 t2 : Nat) (hty : ev.type = "exec") (hargs : ev.args = .obj o)
    (hmode : o.rowMode = some "stmt") :
    ∃ rsp : Response,
      (onmessage eng s ev t1 t2).2 = [OutMsg.response rsp] ∧
      rsp.type = "error" ∧
      rsp.result = .errorRc "exec"
        "Invalid rowMode for 'exec': stmt mode does not work in the Worker API."
        "Error" ev := by
  obtain ⟨rsp, hm, _, _, _, _, htype, hres, _, _⟩ := onmessage_msgs_shape eng s ev t1 t2
  have hex : hExec eng s ev =
      { result := .error (toss ["Invalid rowMode for 'exec': stmt mode",
                                "does not work in the Worker API."]),
        rcFinal := o, aliased := true, posted := [], sys := s } := by
    rw [hExec]
    simp [execRc0, hargs, execAliased, execModeCheck, hmode]
  have heva : ({ ev with args := ReqArgs.obj o } : Request) = ev := by
    rw [← hargs]
  have hdisp : dispatchEv eng s ev =
      (.error (toss ["Invalid rowMode for 'exec': stmt mode",
                     "does not work in the Worker API."]), s, ([] : List OutMsg), ev) := by
    rw [dispatchEv_exec eng s ev hty, hex]
    exact congrArg
      (fun x => ((.error (toss ["Invalid rowMode for 'exec': stmt mode",
                     "does not work in the Worker API."]) : Except JsErr ResPayload),
                 s, ([] : List OutMsg), x)) heva
  refine ⟨rsp, ?_, ?_, ?_⟩
  · rw [hm, hdisp]
    rfl
  · rw [htype, hdisp]
    rfl
  · rw [hres, hdisp]
    simp only [catchRes]
    rw [hty]
    rfl

theorem getDbId_cached {st : WState} {db : DBObj} {id : String}
    (hlk : st.idMap.lookup db.key = some id) (hne : id.isEmpty = false) :
    getDbId st db = (id, st) := by
  rw [getDbId, hlk]
  simp [strTruthy, hne]

theorem getDbId_fresh {st : WState} {db : DBObj}
    (hlk : st.idMap.lookup db.key = none) :
    getDbId st db = (mkDbId (st.idSeq + 1) db.pointer,
      { st with idSeq := st.idSeq + 1,
                idMap := (db.key, mkDbId (st.idSeq + 1) db.pointer) :: st.idMap }) := by
  rw [getDbId, hlk]
  simp [strTruthy, mkDbId]

theorem getDbId_snd_cases (st : WState) (db : DBObj) :
    (getDbId st db).2 = st ∨
    (getDbId st db).2 = { st with
                          idSeq := st.idSeq + 1,
                          idMap := (db.key, mkDbId (st.idSeq + 1) db.pointer) :: st.idMap } := by
  rw [getDbId]
  by_cases h : strTruthy (st.idMap.lookup db.key)
  · rw [if_pos h]
    left
    rfl
  · rw [if_neg h]
    right
    rfl

theorem getDbId_fst_not_empty (st : WState) (db : DBObj) :
    ((getDbId st db).1).isEmpty = false := by
  rw [getDbId]
  by_cases h : strTruthy (st.idMap.lookup db.key)
  · rw [if_pos h]
    rcases hlk : st.idMap.lookup db.key with _ | id
    · rw [hlk] at h
      exact absurd h (by simp [strTruthy])
    · rw [hlk] at h
      simp only [strTruthy, Bool.not_eq_true'] at h
      simpa using h
  · rw [if_neg h]
    exact mkDbId_not_empty _ _

theorem lookup_cons_self {k : Nat} {id : String} {rest : List (Nat × String)} :
    List.lookup k ((k, id) :: rest) = some id := by
  simp [List.lookup]

theorem getDefaultDbId_spec (st : WState) :
    (st.defaultDb = none ∧ getDefaultDbId st = (none, st)) ∨
    (∃ db id st2, st.defaultDb = some db ∧ getDefaultDbId st = (some id, st2) ∧
      st2.defaultDb = st.defaultDb ∧ st2.dbs = st.dbs ∧ st2.xfer = st.xfer ∧
      List.lookup db.key st2.idMap = some id ∧ id.isEmpty = false) := by
  rcases hdef : st.defaultDb with _ | db
  · left
    refine ⟨rfl, ?_⟩
    rw [getDefaultDbId, hdef]
  · right
    rcases hlk : st.idMap.lookup db.key with _ | id
    · refine ⟨db, mkDbId (st.idSeq + 1) db.pointer,
        { st with
          idSeq := st.idSeq + 1,
          idMap := (db.key, mkDbId (st.idSeq + 1) db.pointer) :: st.idMap },
        rfl, ?_, hdef, rfl, rfl, lookup_cons_self, mkDbId_not_empty _ _⟩
      rw [getDefaultDbId, hdef]
      show (some (getDbId st db).1, (getDbId st db).2) = _
      rw [getDbId_fresh hlk, hdef]
    · by_cases hne : id.isEmpty
      · -- falsy cached value: re-mint
        have hfr : getDbId st db = (mkDbId (st.idSeq + 1) db.pointer,
            { st with
              idSeq := st.idSeq + 1,
              idMap := (db.key, mkDbId (st.idSeq + 1) db.pointer) :: st.idMap }) := by
          rw [getDbId, hlk]
          simp [strTruthy, hne]
        refine ⟨db, mkDbId (st.idSeq + 1) db.pointer,
          { st with
            idSeq := st.idSeq + 1,
            idMap := (db.key, mkDbId (st.idSeq + 1) db.pointer) :: st.idMap },
          rfl, ?_, hdef, rfl, rfl, lookup_cons_self, mkDbId_not_empty _ _⟩
        rw [getDefaultDbId, hdef]
        show (some (getDbId st db).1, (getDbId st db).2) = _
        rw [hfr, hdef]
      · have hne2 : id.isEmpty = false := by simpa using hne
        refine ⟨db, id, st, rfl, ?_, hdef, rfl, rfl, hlk, hne2⟩
        rw [getDefaultDbId, hdef]
        show (some (getDbId st db).1, (getDbId st db).2) = _
        rw [getDbId_cached hlk hne2]

theorem getDefaultDbId_fst_eq (st st' : WState)
    (hdef : st'.defaultDb = st.defaultDb) (hmap : st'.idMap = st.idMap)
    (hseq : st'.idSeq = st.idSeq) :
    (getDefaultDbId st').1 = (getDefaultDbId st).1 := by
  rw [getDefaultDbId, getDefaultDbId, hdef]
  rcases st.defaultDb with _ | db
  · rfl
  · show some (getDbId st' db).1 = some (getDbId st db).1
    simp only [getDbId, hmap, hseq]
    by_cases h : strTruthy (List.lookup db.key st.idMap)
    · simp only [if_pos h]
    · simp only [if_neg h]

theorem getDefaultDbId_idem (st : WState) :
    (getDefaultDbId (getDefaultDbId st).2).1 = (getDefaultDbId st).1 := by
  rcases getDefaultDbId_spec st with ⟨hdef, heq⟩ | ⟨db, id, st2, hdef, heq, hdef2, _, _, hlk2, hne⟩
  · rw [heq]
    show (getDefaultDbId st).1 = none
    rw [getDefaultDbId, hdef]
  · rw [heq]
    show (getDefaultDbId st2).1 = some id
    rw [getDefaultDbId, hdef2, hdef]
    show some (getDbId st2 db).1 = some id
    rw [getDbId_cached hlk2 hne]

/-- C2 amended: outbound dbId precedence is request id, then handler result
id, then default. -/
theorem response_dbId_precedence (eng : Engine) (s : Sys) (ev : Request) (t1 t2 : Nat) :
    ∃ (rsp : Response) (pre : List OutMsg),
      (onmessage eng s ev t1 t2).2 = pre ++ [OutMsg.response rsp] ∧
      rsp.dbId = (if strTruthy ev.dbId then ev.dbId
        else if strTruthy rsp.result.dbIdProp then rsp.result.dbIdProp
        else (getDefaultDbId (onmessage eng s ev t1 t2).1.st).1) := by
  obtain ⟨rsp, hm, _, _, _, _, _, _, hdbid, hst, _⟩ := onmessage_msgs_shape eng s ev t1 t2
  refine ⟨rsp, _, hm, ?_⟩
  rw [hdbid, resolveDbId]
  by_cases h1 : strTruthy ev.dbId
  · rw [if_pos h1, if_pos h1]
  · rw [if_neg h1, if_neg h1]
    by_cases h2 : strTruthy rsp.result.dbIdProp
    · rw [if_pos h2, if_pos h2]
    · rw [if_neg h2, if_neg h2]
      rw [hst]
      have hres2 : (resolveDbId ev.dbId rsp.result (dispatchEv eng s ev).2.1.st).2 =
          (getDefaultDbId (dispatchEv eng s ev).2.1.st).2 := by
        rw [resolveDbId, if_neg h1, if_neg h2]
      rw [hres2]
      by_cases h3 : ((getDefaultDbId (dispatchEv eng s ev).2.1.st).2).xfer.length != 0
      · rw [if_pos h3]
        exact ((getDefaultDbId_fst_eq
          ((getDefaultDbId (dispatchEv eng s ev).2.1.st).2)
          ({ ((getDefaultDbId (dispatchEv eng s ev).2.1.st).2) with xfer := [] })
          rfl rfl rfl).trans
          (getDefaultDbId_idem ((dispatchEv eng s ev).2.1.st))).symm
      · rw [if_neg h3]
        exact (getDefaultDbId_idem _).symm

theorem rowPostsOf_eq_spec (t : String) (rows : List RowVal) :
    rowPostsOf t rows = rowMsgsSpec t rows := by
  apply List.ext_getElem?
  intro i
  rw [rowPostsOf, rowMsgsSpec]
  rw [List.getElem?_zipWith, List.getElem?_map]
  by_cases h : i < rows.length
  · simp [List.getElem?_range h, List.getElem?_eq_getElem h, List.get?_eq_getElem?]
  · have h1 : (List.range rows.length)[i]? = none :=
      List.getElem?_eq_none (by simpa using h)
    have h2 : rows[i]? = none := List.getElem?_eq_none (by omega)
    simp [h1, h2]

theorem execModeCheck_ok {o : JObj} (hmode : o.rowMode ≠ some "stmt") :
    ∃ rc1, execModeCheck o = .ok rc1 ∧ rc1.callback = o.callback ∧
      rc1.resultRows = o.resultRows := by
  rcases hrm : o.rowMode with _ | m
  · refine ⟨{ o with rowMode := some "array" }, ?_, rfl, rfl⟩
    rw [execModeCheck, hrm]
    rfl
  · refine ⟨o, ?_, rfl, rfl⟩
    rw [execModeCheck, hrm]
    rw [hrm] at hmode
    rw [if_neg (by simp), if_neg hmode]

/-- C1 amended: with a string streaming-callback tag and a resolvable db,
the worker posts the N row messages in order, a terminal message exactly
when the engine call returns normally (none when it raises), and then the
single response envelope. -/
theorem exec_streaming_protocol (eng : Engine) (s : Sys) (ev : Request)
    (o : JObj) (t : String) (t1 t2 : Nat)
    (hty : ev.type = "exec") (hargs : ev.args = .obj o)
    (hcb : o.callback = some (.tag t)) (hmode : o.rowMode ≠ some "stmt")
    (hdb : ∃ d, getMsgDb s.st ev.dbId true = .ok (some d)) :
    ∃ rsp : Response,
      (onmessage eng s ev t1 t2).2 =
        rowMsgsSpec t (eng.execBeh s.nExecs).1 ++
        (if (eng.execBeh s.nExecs).2 = none then
          [OutMsg.row { type := t, rowNumber := none, row := none }] else []) ++
        [OutMsg.response rsp] := by
  obtain ⟨d, hd⟩ := hdb
  obtain ⟨rc1, hmc, hcb1, _⟩ := execModeCheck_ok hmode
  obtain ⟨rsp, hm, _⟩ := onmessage_msgs_shape eng s ev t1 t2
  refine ⟨rsp, ?_⟩
  rw [hm, dispatchEv_exec eng s ev hty]
  have hmc' : execModeCheck (execRc0 ev.args) = Except.ok rc1 := by
    rw [hargs]
    exact hmc
  have hhx : hExec eng s ev = hExecRun eng s rc1 (execAliased ev.args) := by
    rw [hExec, hmc', hd]
  rw [hhx]
  have hcb1' : rc1.callback = some (CbVal.tag t) := by rw [hcb1, hcb]
  rw [hExecRun, hcb1']
  rcases hbeh : (eng.execBeh s.nExecs).2 with _ | e
  · simp only [hbeh, cbIsFn, cbTypeStr]
    rw [rowPostsOf_eq_spec]
  · simp only [hbeh, cbIsFn, cbTypeStr]
    rw [rowPostsOf_eq_spec]
    simp

theorem hExecRun_tag (eng : Engine) (s : Sys) (rc1 : JObj) (a : Bool) (t : String)
    (hcb1 : rc1.callback = some (.tag t)) :
    (hExecRun eng s rc1 a).rcFinal.callback = some (.tag t) ∧
    (hExecRun eng s rc1 a).aliased = a ∧
    ((hExecRun eng s rc1 a).result = .ok (.execRc (hExecRun eng s rc1 a).rcFinal) ∨
      ∃ e, (hExecRun eng s rc1 a).result = .error e) := by
  rw [hExecRun, hcb1]
  rcases hbeh : (eng.execBeh s.nExecs).2 with _ | e
  · simp only [hbeh, cbIsFn, cbTruthy]
    by_cases hte : t.isEmpty
    · simp [hte]
    · simp [hte]
  · simp only [hbeh, cbIsFn, cbTruthy]
    simp

theorem hExec_tag (eng : Engine) (s : Sys) (ev : Request) (o : JObj) (t : String)
    (hargs : ev.args = .obj o) (hcb : o.callback = some (.tag t)) :
    (hExec eng s ev).aliased = true ∧
    (hExec eng s ev).rcFinal.callback = some (.tag t) ∧
    ((hExec eng s ev).result = .ok (.execRc (hExec eng s ev).rcFinal) ∨
     ∃ e, (hExec eng s ev).result = .error e) := by
  rw [hExec, hargs]
  by_cases hst : o.rowMode = some "stmt"
  · have hmc : execModeCheck o = .error (toss ["Invalid rowMode for 'exec': stmt mode",
        "does not work in the Worker API."]) := by
      rw [execModeCheck]
      simp [hst]
    simp only [execRc0, execAliased, hmc]
    exact ⟨trivial, hcb, Or.inr ⟨_, rfl⟩⟩
  · obtain ⟨rc1, hmc, hcb1, _⟩ := execModeCheck_ok hst
    have hcb1' : rc1.callback = some (CbVal.tag t) := by rw [hcb1, hcb]
    simp only [execRc0, execAliased, hmc]
    rcases hdb : getMsgDb s.st ev.dbId true with e2 | dbO
    · simp only [hdb]
      exact ⟨trivial, hcb1', Or.inr ⟨_, rfl⟩⟩
    · rcases dbO with _ | d
      · simp only [hdb]
        exact ⟨trivial, hcb1', Or.inr ⟨_, rfl⟩⟩
      · simp only [hdb]
        obtain ⟨h1, h2, h3⟩ := hExecRun_tag eng s rc1 true t hcb1'
        exact ⟨h2, h1, h3⟩

/-- C10: the echoed exec options carry the original string callback tag,
on success (in the result payload) and on failure (in the error payload's
echoed request). -/
theorem exec_callback_restored (eng : Engine) (s : Sys) (ev : Request)
    (o : JObj) (t : String) (t1 t2 : Nat)
    (hty : ev.type = "exec") (hargs : ev.args = .obj o)
    (hcb : o.callback = some (.tag t)) :
    ∃ (rsp : Response) (pre : List OutMsg),
      (onmessage eng s ev t1 t2).2 = pre ++ [OutMsg.response rsp] ∧
      ((∃ rc : JObj, rsp.result = .execRc rc ∧ rc.callback = some (.tag t)) ∨
       (∃ (rc : JObj) (m c : String), rsp.result = .errorRc "exec" m c { ev with args := .obj rc } ∧
         rc.callback = some (.tag t))) := by
  obtain ⟨rsp, hm, _, _, _, _, _, hres, _⟩ := onmessage_msgs_shape eng s ev t1 t2
  refine ⟨rsp, _, hm, ?_⟩
  rw [hres, dispatchEv_exec eng s ev hty]
  obtain ⟨ha, hc, hok | ⟨e, herr⟩⟩ := hExec_tag eng s ev o t hargs hcb
  · left
    rw [hok, catchRes]
    exact ⟨(hExec eng s ev).rcFinal, rfl, hc⟩
  · right
    rw [herr, catchRes]
    refine ⟨(hExec eng s ev).rcFinal, e.message, e.name, ?_, hc⟩
    rw [ha, hty]
    rfl

/-- C2 counterexample: an `open` carrying a request dbId gets that id echoed,
not the handler's newly established handle id. -/
theorem open_request_dbId_wins :
    ∃ rsp : Response,
      (onmessage engOk initSys
        { type := "open", args := .obj { filename := some "x.db" }, dbId := some "X" } 0 0).2
        = [OutMsg.response rsp] ∧
      rsp.result.dbIdProp = some "db#1@1000" ∧
      rsp.dbId = some "X" ∧
      rsp.dbId ≠ rsp.result.dbIdProp := by
  refine ⟨_, rfl, ?_, ?_, ?_⟩ <;> decide

/-- C3 counterexample: `close` with an unknown dbId, while a default handle
is set, closes the default handle and reports its filename and id. -/
theorem close_unknown_id_closes_default :
    sysOne.st.dbs.lookup "nope" = none ∧
    sysOne.st.dbs ≠ [] ∧
    (∃ rsp : Response,
      (onmessage engOk sysOne { type := "close", dbId := some "nope" } 0 0).2
        = [OutMsg.response rsp] ∧
      rsp.type = "close" ∧
      rsp.result = .closeRc (some "x.db") (some "db#1@1000")) ∧
    (onmessage engOk sysOne { type := "close", dbId := some "nope" } 0 0).1.st.dbs = [] := by
  refine ⟨by decide, by decide, ⟨_, rfl, by decide, by decide⟩, by decide⟩

/-- C4 counterexample: resolution with a present-but-unknown identifier is
silently routed to the default handle instead of failing. -/
theorem resolve_unknown_id_falls_back :
    sysOne.st.dbs.lookup "bogus" = none ∧
    sysOne.st.defaultDb = some { key := 0, pointer := 1000, filename := "x.db" } ∧
    getMsgDb sysOne.st (some "bogus") true =
      .ok (some { key := 0, pointer := 1000, filename := "x.db" }) := by
  decide

/-- C1 counterexample: when the engine call raises after one produced row,
no terminal streaming message is posted. -/
theorem exec_raise_posts_no_terminal :
    ∃ r1 r2 : Response,
      (run engRowThenFail initSys
        [({ type := "open", args := .obj { filename := some "x.db" } }, 0, 0),
         ({ type := "exec", args := .obj { sql := some "q", callback := some (.tag "cb") } }, 0, 0)]).2
        = [OutMsg.response r1,
           OutMsg.row { type := "cb", rowNumber := some 1, row := some (RowVal.val 7) },
           OutMsg.response r2] ∧
      r2.type = "error" ∧
      ((run engRowThenFail initSys
        [({ type := "open", args := .obj { filename := some "x.db" } }, 0, 0),
         ({ type := "exec", args := .obj { sql := some "q", callback := some (.tag "cb") } }, 0, 0)]).2.countP
          (isTerminalRow "cb")) = 0 := by
  refine ⟨_, _, rfl, by decide, by decide⟩

theorem getDbId_preserves (st : WState) (db : DBObj) :
    (getDbId st db).2.defaultDb = st.defaultDb ∧ (getDbId st db).2.dbs = st.dbs ∧
    (getDbId st db).2.xfer = st.xfer := by
  rcases getDbId_snd_cases st db with h | h <;> rw [h] <;> exact ⟨rfl, rfl, rfl⟩

theorem getDefaultDbId_preserves (st : WState) :
    (getDefaultDbId st).2.defaultDb = st.defaultDb ∧
    (getDefaultDbId st).2.dbs = st.dbs ∧
    (getDefaultDbId st).2.xfer = st.xfer := by
  rw [getDefaultDbId]
  rcases hdef : st.defaultDb with _ | db
  · exact ⟨hdef, rfl, rfl⟩
  · show (getDbId st db).2.defaultDb = some db ∧ (getDbId st db).2.dbs = st.dbs ∧
      (getDbId st db).2.xfer = st.xfer
    exact ⟨((getDbId_preserves st db).1).trans hdef, (getDbId_preserves st db).2.1,
      (getDbId_preserves st db).2.2⟩

theorem resolveDbId_preserves (a : Option String) (r : ResPayload) (st : WState) :
    (resolveDbId a r st).2.defaultDb = st.defaultDb ∧
    (resolveDbId a r st).2.dbs = st.dbs := by
  rw [resolveDbId]
  by_cases h1 : strTruthy a
  · rw [if_pos h1]
    exact ⟨rfl, rfl⟩
  · rw [if_neg h1]
    by_cases h2 : strTruthy r.dbIdProp
    · rw [if_pos h2]
      exact ⟨rfl, rfl⟩
    · rw [if_neg h2]
      exact ⟨(getDefaultDbId_preserves st).1, (getDefaultDbId_preserves st).2.1⟩

/-- C3 amended: when the supplied id resolves to nothing and no default is
set, `close` is a pure no-op answering with both fields absent. -/
theorem close_unresolved_no_default_noop (eng : Engine) (s : Sys) (ev : Request)
    (t1 t2 : Nat) (hty : ev.type = "close")
    (hlk : ev.dbId.bind (fun i => s.st.dbs.lookup i) = none)
    (hdef : s.st.defaultDb = none) :
    ∃ rsp : Response,
      (onmessage eng s ev t1 t2).2 = [OutMsg.response rsp] ∧
      rsp.type = "close" ∧
      rsp.result = .closeRc none none ∧
      (onmessage eng s ev t1 t2).1.st.dbs = s.st.dbs ∧
      (onmessage eng s ev t1 t2).1.st.defaultDb = none ∧
      (onmessage eng s ev t1 t2).1.st.idMap = s.st.idMap ∧
      (onmessage eng s ev t1 t2).1.st.idSeq = s.st.idSeq ∧
      (onmessage eng s ev t1 t2).1.unlinked = s.unlinked := by
  have hg : getMsgDb s.st ev.dbId false = .ok none := by
    rw [getMsgDb, wGetDb, hlk]
    simp [hdef]
  have hc : hClose s ev = (.ok (.closeRc none none), s) := by
    rw [hClose, hg]
    rfl
  have hdisp : dispatchEv eng s ev = (.ok (.closeRc none none), s, [], ev) := by
    rw [dispatchEv_close eng s ev hty, hc]
  obtain ⟨rsp, hm, _, _, _, _, htype, hres, _, hst, _, _, hunl⟩ :=
    onmessage_msgs_shape eng s ev t1 t2
  have hres2 : rsp.result = .closeRc none none := by
    rw [hres, hdisp, catchRes]
  have hrd : (resolveDbId ev.dbId rsp.result s.st).2 = s.st := by
    rw [resolveDbId]
    by_cases h1 : strTruthy ev.dbId
    · rw [if_pos h1]
    · rw [if_neg h1]
      rw [hres2]
      show (getDefaultDbId s.st).2 = s.st
      rw [getDefaultDbId, hdef]
  refine ⟨rsp, ?_, ?_, hres2, ?_, ?_, ?_, ?_, ?_⟩
  · rw [hm, hdisp]
    rfl
  · rw [htype, hdisp, catchRes, hty]
  · rw [hst, hdisp]
    show (if ((resolveDbId ev.dbId rsp.result s.st).2).xfer.length != 0
      then { ((resolveDbId ev.dbId rsp.result s.st).2) with xfer := [] }
      else ((resolveDbId ev.dbId rsp.result s.st).2)).dbs = s.st.dbs
    rw [hrd]
    by_cases h3 : s.st.xfer.length != 0
    · rw [if_pos h3]
    · rw [if_neg h3]
  · rw [hst, hdisp]
    show (if ((resolveDbId ev.dbId rsp.result s.st).2).xfer.length != 0
      then { ((resolveDbId ev.dbId rsp.result s.st).2) with xfer := [] }
      else ((resolveDbId ev.dbId rsp.result s.st).2)).defaultDb = none
    rw [hrd]
    by_cases h3 : s.st.xfer.length != 0
    · rw [if_pos h3]
      exact hdef
    · rw [if_neg h3]
      exact hdef
  · rw [hst, hdisp]
    show (if ((resolveDbId ev.dbId rsp.result s.st).2).xfer.length != 0
      then { ((resolveDbId ev.dbId rsp.result s.st).2) with xfer := [] }
      else ((resolveDbId ev.dbId rsp.result s.st).2)).idMap = s.st.idMap
    rw [hrd]
    by_cases h3 : s.st.xfer.length != 0
    · rw [if_pos h3]
    · rw [if_neg h3]
  · rw [hst, hdisp]
    show (if ((resolveDbId ev.dbId rsp.result s.st).2).xfer.length != 0
      then { ((resolveDbId ev.dbId rsp.result s.st).2) with xfer := [] }
      else ((resolveDbId ev.dbId rsp.result s.st).2)).idSeq = s.st.idSeq
    rw [hrd]
    by_cases h3 : s.st.xfer.length != 0
    · rw [if_pos h3]
    · rw [if_neg h3]
  · rw [hunl, hdisp]

/-- C4 amended: resolution returns the handle named by a resolving id, falls
back to the default whenever the id does not resolve (absent or unknown),
and fails only when that fallback yields no open handle. -/
theorem resolve_precedence (st : WState) (dbId : Option String) :
    (∀ db : DBObj, dbId.bind (fun i => st.dbs.lookup i) = some db → db.pointer ≠ 0 →
        getMsgDb st dbId true = .ok (some db)) ∧
    (dbId.bind (fun i => st.dbs.lookup i) = none →
      ∀ d : DBObj, st.defaultDb = some d → d.pointer ≠ 0 →
        getMsgDb st dbId true = .ok (some d)) ∧
    (dbId.bind (fun i => st.dbs.lookup i) = none → st.defaultDb = none →
        getMsgDb st dbId true = .error (toss ["DB is not opened."])) := by
  refine ⟨?_, ?_, ?_⟩
  · intro db hlk hp
    rw [getMsgDb, wGetDb, hlk]
    show (affirmDbOpen (some db)).map (fun d => some d) = Except.ok (some db)
    rw [affirmDbOpen]
    simp [hp, Except.map]
  · intro hlk d hdef hp
    rw [getMsgDb, wGetDb, hlk]
    show (affirmDbOpen st.defaultDb).map (fun d => some d) = Except.ok (some d)
    rw [hdef, affirmDbOpen]
    simp [hp, Except.map]
  · intro hlk hdef
    rw [getMsgDb, wGetDb, hlk]
    show (affirmDbOpen st.defaultDb).map (fun d => some d) = _
    rw [hdef, affirmDbOpen]
    rfl

theorem wOpen_ok_spec (eng : Engine) (s : Sys) (f : String) (ptr : Nat) (fn : String)
    (hob : eng.openBeh s.nOpens f = .ok (ptr, fn)) :
    wOpen eng s f =
      (.ok ⟨s.nOpens, ptr, fn⟩,
       { s with nOpens := s.nOpens + 1,
                st := if ((getDbId s.st ⟨s.nOpens, ptr, fn⟩).2.defaultDb).isNone then
                        { (getDbId s.st ⟨s.nOpens, ptr, fn⟩).2 with
                          dbs := assocSet (getDbId s.st ⟨s.nOpens, ptr, fn⟩).2.dbs
                            (getDbId s.st ⟨s.nOpens, ptr, fn⟩).1 ⟨s.nOpens, ptr, fn⟩,
                          defaultDb := some ⟨s.nOpens, ptr, fn⟩ }
                      else
                        { (getDbId s.st ⟨s.nOpens, ptr, fn⟩).2 with
                          dbs := assocSet (getDbId s.st ⟨s.nOpens, ptr, fn⟩).2.dbs
                            (getDbId s.st ⟨s.nOpens, ptr, fn⟩).1 ⟨s.nOpens, ptr, fn⟩ } }) := by
  rw [wOpen, hob]

theorem wClose_some_spec (s : Sys) (db : DBObj) (u : Bool) :
    wClose s (some db) u =
      { s with
        st := if (getDbId s.st db).2.defaultDb = some db
              then { (getDbId s.st db).2 with
                     dbs := assocDel (getDbId s.st db).2.dbs (getDbId s.st db).1,
                     defaultDb := none }
              else { (getDbId s.st db).2 with
                     dbs := assocDel (getDbId s.st db).2.dbs (getDbId s.st db).1 },
        unlinked := s.unlinked ++
          (if u && !db.filename.isEmpty then [db.filename] else []) } := by
  rw [wClose]

/-- C6: default-handle discipline of the registry. -/
theorem default_handle_discipline (eng : Engine) (s : Sys) (f : String)
    (d db2 : DBObj) (u : Bool) :
    (s.st.defaultDb = none → ∀ db s2, wOpen eng s f = (.ok db, s2) →
        s2.st.defaultDb = some db) ∧
    (s.st.defaultDb = some d → ∀ db s2, wOpen eng s f = (.ok db, s2) →
        s2.st.defaultDb = some d) ∧
    (s.st.defaultDb = some d → (wClose s (some d) u).st.defaultDb = none) ∧
    (s.st.defaultDb = some d → db2 ≠ d →
        (wClose s (some db2) u).st.defaultDb = some d) ∧
    (s.st.defaultDb = some d → d.pointer ≠ 0 →
        getMsgDb s.st none true = .ok (some d)) := by
  refine ⟨?_, ?_, ?_, ?_, ?_⟩
  · intro hdef db s2 heq
    rcases hob : eng.openBeh s.nOpens f with e | ⟨ptr, fn⟩
    · rw [wOpen, hob] at heq
      cases heq
    · rw [wOpen_ok_spec eng s f ptr fn hob] at heq
      injection heq with h1 h2
      injection h1 with h1
      rw [← h2]
      have hX : ((getDbId s.st ⟨s.nOpens, ptr, fn⟩).2.defaultDb) = none :=
        ((getDbId_preserves s.st ⟨s.nOpens, ptr, fn⟩).1).trans hdef
      rw [hX]
      exact congrArg some h1
  · intro hdef db s2 heq
    rcases hob : eng.openBeh s.nOpens f with e | ⟨ptr, fn⟩
    · rw [wOpen, hob] at heq
      cases heq
    · rw [wOpen_ok_spec eng s f ptr fn hob] at heq
      injection heq with h1 h2
      rw [← h2]
      have hX : ((getDbId s.st ⟨s.nOpens, ptr, fn⟩).2.defaultDb) = some d :=
        ((getDbId_preserves s.st ⟨s.nOpens, ptr, fn⟩).1).trans hdef
      rw [hX]
      exact hX
  · intro hdef
    rw [wClose_some_spec]
    have hX : ((getDbId s.st d).2.defaultDb) = some d :=
      ((getDbId_preserves s.st d).1).trans hdef
    rw [if_pos hX]
  · intro hdef hne
    rw [wClose_some_spec]
    have hX : ((getDbId s.st db2).2.defaultDb) = some d :=
      ((getDbId_preserves s.st db2).1).trans hdef
    rw [hX, if_neg (by simp only [Option.some.injEq]; exact fun h => hne h.symm)]
    exact hX
  · intro hdef hp
    rw [getMsgDb, wGetDb]
    show (affirmDbOpen s.st.defaultDb).map (fun x => some x) = Except.ok (some d)
    rw [hdef, affirmDbOpen]
    simp [hp, Except.map]

/-- C8: when the engine's open primitive throws, the registry keeps no trace
of the attempt: the handler returns the error with the worker state intact,
and the served message leaves the handle map and default designation
unchanged while answering with an error envelope. -/
theorem open_engine_failure_preserves_registry (eng : Engine) (s : Sys)
    (ev : Request) (o : JObj) (er : JsErr) (t1 t2 : Nat)
    (hty : ev.type = "open") (hargs : ev.args = .obj o)
    (hsim : o.simulateError = false)
    (hfail : eng.openBeh s.nOpens (openFilename eng o) = .error er) :
    hOpen eng s ev = (.error er, { s with nOpens := s.nOpens + 1 }) ∧
    (onmessage eng s ev t1 t2).1.st.dbs = s.st.dbs ∧
    (onmessage eng s ev t1 t2).1.st.defaultDb = s.st.defaultDb ∧
    (∃ rsp : Response, (onmessage eng s ev t1 t2).2 = [OutMsg.response rsp] ∧
      rsp.type = "error" ∧
      rsp.result = .errorRc "open" er.message er.name ev) := by
  have hwo : wOpen eng s (openFilename eng o) =
      (.error er, { s with nOpens := s.nOpens + 1 }) := by
    rw [wOpen, hfail]
  have hho : hOpen eng s ev = (.error er, { s with nOpens := s.nOpens + 1 }) := by
    rw [hOpen, hargs]
    rw [show argsObj (ReqArgs.obj o) = o from rfl]
    rw [hsim]
    rw [if_neg (by simp)]
    simp only [hwo]
  have hdisp : dispatchEv eng s ev =
      (.error er, { s with nOpens := s.nOpens + 1 }, [], ev) := by
    rw [dispatchEv_open eng s ev hty, hho]
  obtain ⟨rsp, hm, _, _, _, _, htype, hres, _, hst, _⟩ :=
    onmessage_msgs_shape eng s ev t1 t2
  have hres2 : rsp.result = .errorRc ev.type er.message er.name ev := by
    rw [hres, hdisp, catchRes]
  refine ⟨hho, ?_, ?_, rsp, ?_, ?_, ?_⟩
  · rw [hst, hdisp]
    have hp := resolveDbId_preserves ev.dbId rsp.result s.st
    by_cases h3 : ((resolveDbId ev.dbId rsp.result s.st).2).xfer.length != 0
    · rw [if_pos h3]
      exact hp.2
    · rw [if_neg h3]
      exact hp.2
  · rw [hst, hdisp]
    have hp := resolveDbId_preserves ev.dbId rsp.result s.st
    by_cases h3 : ((resolveDbId ev.dbId rsp.result s.st).2).xfer.length != 0
    · rw [if_pos h3]
      exact hp.1
    · rw [if_neg h3]
      exact hp.1
  · rw [hm, hdisp]
    rfl
  · rw [htype, hdisp, catchRes]
  · rw [hres2, hty]

theorem lookup_none_of_keys_lt {m : List (Nat × String)} {k : Nat}
    (h : ∀ kv ∈ m, kv.1 < k) : List.lookup k m = none := by
  induction m with
  | nil => rfl
  | cons a t ih =>
    rcases a with ⟨a1, a2⟩
    have ha : a1 < k := h (a1, a2) (List.mem_cons_self _ t)
    have hne : (k == a1) = false := by
      simp only [beq_eq_false_iff_ne, ne_eq]
      omega
    rw [List.lookup, hne]
    exact ih (fun kv hkv => h kv (List.mem_cons_of_mem _ hkv))

theorem lookup_mem {α β : Type} [BEq α] [LawfulBEq α] {l : List (α × β)} {k : α} {v : β}
    (h : List.lookup k l = some v) : (k, v) ∈ l := by
  induction l with
  | nil => cases h
  | cons a t ih =>
    rcases a with ⟨a1, a2⟩
    rw [List.lookup] at h
    by_cases hb : k == a1
    · rw [hb] at h
      injection h with h
      have hk : k = a1 := eq_of_beq hb
      rw [hk, ← h]
      exact List.mem_cons_self _ _
    · rw [Bool.of_not_eq_true hb] at h
      exact List.mem_cons_of_mem _ (ih h)

theorem KeysLt_mono {st : WState} {n m : Nat} (h : KeysLt st n) (hnm : n ≤ m) :
    KeysLt st m :=
  ⟨fun kv hkv => lt_of_lt_of_le (h.1 kv hkv) hnm,
   fun p hp => lt_of_lt_of_le (h.2.1 p hp) hnm,
   fun d hd => lt_of_lt_of_le (h.2.2 d hd) hnm⟩

theorem KeysLt_getDbId {st : WState} {n : Nat} (db : DBObj)
    (h : KeysLt st n) (hdb : db.key < n) : KeysLt (getDbId st db).2 n := by
  rcases getDbId_snd_cases st db with heq | heq <;> rw [heq]
  · exact h
  · refine ⟨?_, h.2.1, h.2.2⟩
    intro kv hkv
    rcases List.mem_cons.mp hkv with h1 | h1
    · rw [h1]
      exact hdb
    · exact h.1 kv h1

theorem getDbId_idSeq_le (st : WState) (db : DBObj) :
    st.idSeq ≤ (getDbId st db).2.idSeq := by
  rcases getDbId_snd_cases st db with heq | heq <;> rw [heq] <;>
    first
      | exact Nat.le_refl _
      | exact Nat.le_succ _

theorem KeysLt_getDefaultDbId {st : WState} {n : Nat} (h : KeysLt st n) :
    KeysLt (getDefaultDbId st).2 n := by
  rw [getDefaultDbId]
  rcases hdef : st.defaultDb with _ | d
  · exact h
  · show KeysLt (getDbId st d).2 n
    exact KeysLt_getDbId d h (h.2.2 d hdef)

theorem getDefaultDbId_idSeq_le (st : WState) :
    st.idSeq ≤ (getDefaultDbId st).2.idSeq := by
  rw [getDefaultDbId]
  rcases hdef : st.defaultDb with _ | d
  · exact Nat.le_refl _
  · exact getDbId_idSeq_le st d

theorem KeysLt_resolveDbId {st : WState} {n : Nat} (a : Option String)
    (r : ResPayload) (h : KeysLt st n) : KeysLt (resolveDbId a r st).2 n := by
  rw [resolveDbId]
  by_cases h1 : strTruthy a
  · rw [if_pos h1]
    exact h
  · rw [if_neg h1]
    by_cases h2 : strTruthy r.dbIdProp
    · rw [if_pos h2]
      exact h
    · rw [if_neg h2]
      exact KeysLt_getDefaultDbId h

theorem resolveDbId_idSeq_le (a : Option String) (r : ResPayload) (st : WState) :
    st.idSeq ≤ (resolveDbId a r st).2.idSeq := by
  rw [resolveDbId]
  by_cases h1 : strTruthy a
  · rw [if_pos h1]
  · rw [if_neg h1]
    by_cases h2 : strTruthy r.dbIdProp
    · rw [if_pos h2]
    · rw [if_neg h2]
      exact getDefaultDbId_idSeq_le st

theorem hOpen_cases (eng : Engine) (s : Sys) (ev : Request)
    (hInv : KeysLt s.st s.nOpens) :
    (∃ er, hOpen eng s ev = (.error er, s)) ∨
    (∃ er, hOpen eng s ev = (.error er, { s with nOpens := s.nOpens + 1 })) ∨
    (∃ ptr fn, hOpen eng s ev =
      (.ok (.openRc fn (!eng.pDir.isEmpty && fn.startsWith eng.pDir)
              (mkDbId (s.st.idSeq + 1) ptr)),
       { s with nOpens := s.nOpens + 1,
                st := { defaultDb := if s.st.defaultDb.isNone then some ⟨s.nOpens, ptr, fn⟩
                                     else s.st.defaultDb,
                        idSeq := s.st.idSeq + 1,
                        idMap := (s.nOpens, mkDbId (s.st.idSeq + 1) ptr) :: s.st.idMap,
                        xfer := s.st.xfer,
                        dbs := assocSet s.st.dbs (mkDbId (s.st.idSeq + 1) ptr)
                                 ⟨s.nOpens, ptr, fn⟩ } })) := by
  by_cases hsim : (argsObj ev.args).simulateError
  · left
    refine ⟨toss ["Throwing because of simulateError flag."], ?_⟩
    rw [hOpen]
    simp only [hsim, if_true]
  · rcases hok : eng.openBeh s.nOpens (openFilename eng (argsObj ev.args)) with er | pf
    · right; left
      refine ⟨er, ?_⟩
      have hwo : wOpen eng s (openFilename eng (argsObj ev.args)) =
          (.error er, { s with nOpens := s.nOpens + 1 }) := by
        rw [wOpen, hok]
      rw [hOpen]
      simp only [hsim, if_false, Bool.false_eq_true, hwo]
    · right; right
      rcases pf with ⟨ptr, fn⟩
      refine ⟨ptr, fn, ?_⟩
      have hlk : List.lookup s.nOpens s.st.idMap = none :=
        lookup_none_of_keys_lt hInv.1
      have hg1 : getDbId s.st ⟨s.nOpens, ptr, fn⟩ =
          (mkDbId (s.st.idSeq + 1) ptr,
           { s.st with
             idSeq := s.st.idSeq + 1,
             idMap := (s.nOpens, mkDbId (s.st.idSeq + 1) ptr) :: s.st.idMap }) :=
        getDbId_fresh hlk
      have hwo : wOpen eng s (openFilename eng (argsObj ev.args)) =
          (.ok ⟨s.nOpens, ptr, fn⟩,
           { s with nOpens := s.nOpens + 1,
                    st := { defaultDb := if s.st.defaultDb.isNone then some ⟨s.nOpens, ptr, fn⟩
                                         else s.st.defaultDb,
                            idSeq := s.st.idSeq + 1,
                            idMap := (s.nOpens, mkDbId (s.st.idSeq + 1) ptr) :: s.st.idMap,
                            xfer := s.st.xfer,
                            dbs := assocSet s.st.dbs (mkDbId (s.st.idSeq + 1) ptr)
                                     ⟨s.nOpens, ptr, fn⟩ } }) := by
        rw [wOpen, hok]
        simp only [hg1]
        by_cases hdn : s.st.defaultDb.isNone
        · rw [if_pos hdn, if_pos hdn]
        · rw [if_neg hdn, if_neg hdn]
      rw [hOpen]
      simp only [hsim, if_false, Bool.false_eq_true, hwo]
      have hlk2 : ∀ st3 : WState,
          st3.idMap = (s.nOpens, mkDbId (s.st.idSeq + 1) ptr) :: s.st.idMap →
          getDbId st3 ⟨s.nOpens, ptr, fn⟩ = (mkDbId (s.st.idSeq + 1) ptr, st3) := by
        intro st3 hmap
        refine getDbId_cached ?_ (mkDbId_not_empty _ _)
        rw [hmap]
        exact lookup_cons_self
      rw [hlk2 _ rfl]

theorem getMsgDb_false_eq (st : WState) (dbId : Option String) :
    getMsgDb st dbId false =
      .ok (match dbId.bind (fun i => st.dbs.lookup i) with
           | some db => some db
           | none => st.defaultDb) := by
  rw [getMsgDb, wGetDb]
  rcases hlk : dbId.bind (fun i => st.dbs.lookup i) with _ | db <;> rfl

theorem KeysLt_clearXfer {st : WState} {n : Nat} (h : KeysLt st n) :
    KeysLt { st with xfer := [] } n := ⟨h.1, h.2.1, h.2.2⟩

theorem KeysLt_of_fields {st st' : WState} {n : Nat} (h : KeysLt st n)
    (h1 : st'.idMap = st.idMap) (h2 : st'.dbs = st.dbs)
    (h3 : st'.defaultDb = st.defaultDb) : KeysLt st' n := by
  refine ⟨?_, ?_, ?_⟩
  · rw [h1]; exact h.1
  · rw [h2]; exact h.2.1
  · rw [h3]; exact h.2.2

theorem wClose_state (s : Sys) (db : DBObj) (u : Bool) (n : Nat)
    (h : KeysLt s.st n) (hdb : db.key < n) :
    KeysLt (wClose s (some db) u).st n ∧
    s.st.idSeq ≤ (wClose s (some db) u).st.idSeq ∧
    (wClose s (some db) u).nOpens = s.nOpens := by
  rw [wClose_some_spec]
  have hK := KeysLt_getDbId db h hdb
  have hseq := getDbId_idSeq_le s.st db
  by_cases hc : (getDbId s.st db).2.defaultDb = some db
  · rw [if_pos hc]
    refine ⟨⟨hK.1, ?_, ?_⟩, hseq, rfl⟩
    · intro p hp
      rw [assocDel] at hp
      exact hK.2.1 p (List.mem_filter.mp hp).1
    · intro d hd
      cases hd
  · rw [if_neg hc]
    refine ⟨⟨hK.1, ?_, hK.2.2⟩, hseq, rfl⟩
    intro p hp
    rw [assocDel] at hp
    exact hK.2.1 p (List.mem_filter.mp hp).1

theorem hClose_state (s : Sys) (ev : Request) (h : KeysLt s.st s.nOpens) :
    KeysLt (hClose s ev).2.st s.nOpens ∧
    s.st.idSeq ≤ (hClose s ev).2.st.idSeq ∧
    (hClose s ev).2.nOpens = s.nOpens := by
  rw [hClose, getMsgDb_false_eq]
  rcases hbind : ev.dbId.bind (fun i => s.st.dbs.lookup i) with _ | db
  · rcases hdef : s.st.defaultDb with _ | d
    · exact ⟨h, Nat.le_refl _, rfl⟩
    · have hdk : d.key < s.nOpens := h.2.2 d hdef
      have hK1 := KeysLt_getDbId d h hdk
      have hs1 := getDbId_idSeq_le s.st d
      have hw := wClose_state { s with st := (getDbId s.st d).2 } d
        (match ev.args with | .obj o => o.unlink | _ => false) s.nOpens hK1 hdk
      exact ⟨hw.1, Nat.le_trans hs1 hw.2.1, hw.2.2⟩
  · have hmem : ∃ k, (k, db) ∈ s.st.dbs := by
      rcases hb2 : ev.dbId with _ | i
      · rw [hb2] at hbind
        cases hbind
      · rw [hb2] at hbind
        exact ⟨i, lookup_mem hbind⟩
    obtain ⟨k, hk⟩ := hmem
    have hdk : db.key < s.nOpens := h.2.1 (k, db) hk
    have hK1 := KeysLt_getDbId db h hdk
    have hs1 := getDbId_idSeq_le s.st db
    have hw := wClose_state { s with st := (getDbId s.st db).2 } db
      (match ev.args with | .obj o => o.unlink | _ => false) s.nOpens hK1 hdk
    exact ⟨hw.1, Nat.le_trans hs1 hw.2.1, hw.2.2⟩

theorem hExec_state (eng : Engine) (s : Sys) (ev : Request) :
    (hExec eng s ev).sys.st.dbs = s.st.dbs ∧
    (hExec eng s ev).sys.st.defaultDb = s.st.defaultDb ∧
    (hExec eng s ev).sys.st.idMap = s.st.idMap ∧
    (hExec eng s ev).sys.st.idSeq = s.st.idSeq ∧
    (hExec eng s ev).sys.nOpens = s.nOpens := by
  rw [hExec]
  rcases hmc : execModeCheck (execRc0 ev.args) with e | rc1
  · exact ⟨rfl, rfl, rfl, rfl, rfl⟩
  · rcases hdb : getMsgDb s.st ev.dbId true with e | dbO
    · exact ⟨rfl, rfl, rfl, rfl, rfl⟩
    · rcases dbO with _ | d
      · exact ⟨rfl, rfl, rfl, rfl, rfl⟩
      · show (hExecRun eng s rc1 (execAliased ev.args)).sys.st.dbs = s.st.dbs ∧
          (hExecRun eng s rc1 (execAliased ev.args)).sys.st.defaultDb = s.st.defaultDb ∧
          (hExecRun eng s rc1 (execAliased ev.args)).sys.st.idMap = s.st.idMap ∧
          (hExecRun eng s rc1 (execAliased ev.args)).sys.st.idSeq = s.st.idSeq ∧
          (hExecRun eng s rc1 (execAliased ev.args)).sys.nOpens = s.nOpens
        rw [hExecRun]
        rcases hbeh : (eng.execBeh s.nExecs).2 with _ | e <;>
          simp only [hbeh] <;>
          refine ⟨?_, ?_, ?_, ?_, ?_⟩ <;>
          (try split) <;> (first | rfl | trivial)

theorem hClose_not_openRc (s : Sys) (ev : Request) (p : ResPayload) :
    (hClose s ev).1 = .ok p → ∃ f i, p = .closeRc f i := by
  rw [hClose]
  rcases hg : getMsgDb s.st ev.dbId false with e | dbO
  · intro hp
    cases hp
  · intro hp
    injection hp with hp
    exact ⟨_, _, hp.symm⟩

theorem hExec_ok_execRc (eng : Engine) (s : Sys) (ev : Request) (p : ResPayload) :
    (hExec eng s ev).result = .ok p → ∃ rc, p = .execRc rc := by
  rw [hExec]
  rcases hmc : execModeCheck (execRc0 ev.args) with e | rc1
  · intro hp
    cases hp
  · rcases hdb : getMsgDb s.st ev.dbId true with e | dbO
    · intro hp
      cases hp
    · rcases dbO with _ | d
      · intro hp
        cases hp
      · intro hp
        replace hp : (hExecRun eng s rc1 (execAliased ev.args)).result = .ok p := hp
        rw [hExecRun] at hp
        rcases hbeh : (eng.execBeh s.nExecs).2 with _ | e <;> simp only [hbeh] at hp
        · injection hp with hp
          exact ⟨_, hp.symm⟩
        · cases hp

theorem openedIds_append (l1 l2 : List OutMsg) :
    openedIds (l1 ++ l2) = openedIds l1 ++ openedIds l2 := by
  rw [openedIds, openedIds, openedIds, List.filterMap_append]

theorem openedIds_rows_nil {l : List OutMsg}
    (h : ∀ m ∈ l, ∃ rm, m = OutMsg.row rm) : openedIds l = [] := by
  rw [openedIds, List.filterMap_eq_nil_iff]
  intro m hm
  obtain ⟨rm, rfl⟩ := h m hm
  rfl

theorem dispatchEv_other (eng : Engine) (s : Sys) (ev : Request)
    (h1 : ev.type ≠ "open") (h2 : ev.type ≠ "close") (h3 : ev.type ≠ "exec") :
    (dispatchEv eng s ev).2.1 = s ∧
    ((dispatchEv eng s ev).1 = .ok (.configRc (hConfigGet eng)) ∨
      ∃ e, (dispatchEv eng s ev).1 = .error e) := by
  rw [dispatchEv]
  rw [if_neg h1, if_neg h2, if_neg h3]
  by_cases h4 : ev.type = "config-get"
  · rw [if_pos h4]
    exact ⟨rfl, Or.inl rfl⟩
  · rw [if_neg h4]
    by_cases h5 : ev.type = "export"
    · rw [if_pos h5]
      exact ⟨rfl, Or.inr ⟨_, rfl⟩⟩
    · rw [if_neg h5]
      by_cases h6 : ev.type = "toss"
      · rw [if_pos h6]
        exact ⟨rfl, Or.inr ⟨_, rfl⟩⟩
      · rw [if_neg h6]
        exact ⟨rfl, Or.inr ⟨_, rfl⟩⟩

theorem openedIds_single_openRc {rsp : Response} {f : String} {pe : Bool} {id : String}
    (h : rsp.result = .openRc f pe id) : openedIds [OutMsg.response rsp] = [id] := by
  rw [openedIds]
  simp [List.filterMap_cons, h]

theorem openedIds_single_of_not_open {rsp : Response}
    (h : ∀ f pe id, rsp.result ≠ .openRc f pe id) :
    openedIds [OutMsg.response rsp] = [] := by
  rw [openedIds]
  rcases hr : rsp.result with ⟨f, pe, id⟩ | ⟨f, i⟩ | ⟨rc⟩ | ⟨rc⟩ | ⟨a, b, c, d⟩
  · exact absurd hr (h f pe id)
  all_goals simp [List.filterMap_cons, hr]

theorem errorRc_not_openRc (op m c : String) (input : Request) :
    ∀ f pe id, (ResPayload.errorRc op m c input) ≠ .openRc f pe id := by
  intro f pe id hc
  cases hc

theorem step_facts (eng : Engine) (s : Sys) (ev : Request) (t1 t2 : Nat)
    (hInv : Inv s) :
    Inv (onmessage eng s ev t1 t2).1 ∧
    s.st.idSeq ≤ (onmessage eng s ev t1 t2).1.st.idSeq ∧
    (openedIds (onmessage eng s ev t1 t2).2 = [] ∨
      ∃ p, openedIds (onmessage eng s ev t1 t2).2 = [mkDbId (s.st.idSeq + 1) p] ∧
        s.st.idSeq + 1 ≤ (onmessage eng s ev t1 t2).1.st.idSeq) := by
  obtain ⟨rsp, hm, _, _, _, _, htype, hres, hdbid, hst, hnO, _, _⟩ :=
    onmessage_msgs_shape eng s ev t1 t2
  have hbranch :
      KeysLt (dispatchEv eng s ev).2.1.st (dispatchEv eng s ev).2.1.nOpens ∧
      s.st.idSeq ≤ (dispatchEv eng s ev).2.1.st.idSeq ∧
      (openedIds [OutMsg.response rsp] = [] ∨
        ∃ p, openedIds [OutMsg.response rsp] = [mkDbId (s.st.idSeq + 1) p] ∧
          s.st.idSeq + 1 ≤ (dispatchEv eng s ev).2.1.st.idSeq) := by
    by_cases hty1 : ev.type = "open"
    · have hD := dispatchEv_open eng s ev hty1
      rcases hOpen_cases eng s ev hInv with ⟨er, heq⟩ | ⟨er, heq⟩ | ⟨ptr, fn, heq⟩
      · rw [hD, heq]
        refine ⟨hInv, Nat.le_refl _, Or.inl ?_⟩
        refine openedIds_single_of_not_open ?_
        rw [hres, hD, heq, catchRes]
        exact errorRc_not_openRc _ _ _ _
      · rw [hD, heq]
        refine ⟨KeysLt_mono hInv (Nat.le_succ _), Nat.le_refl _, Or.inl ?_⟩
        refine openedIds_single_of_not_open ?_
        rw [hres, hD, heq, catchRes]
        exact errorRc_not_openRc _ _ _ _
      · rw [hD, heq]
        refine ⟨⟨?_, ?_, ?_⟩, Nat.le_succ _, Or.inr ⟨ptr, ?_, Nat.le_refl _⟩⟩
        · intro kv hkv
          rcases List.mem_cons.mp hkv with h1 | h1
          · rw [h1]
            exact Nat.lt_succ_self _
          · exact Nat.lt_succ_of_lt (hInv.1 kv h1)
        · intro p hp
          rw [assocSet] at hp
          rcases List.mem_cons.mp hp with h1 | h1
          · rw [h1]
            exact Nat.lt_succ_self _
          · exact Nat.lt_succ_of_lt (hInv.2.1 p (List.mem_filter.mp h1).1)
        · intro d hd
          by_cases hdn : s.st.defaultDb.isNone
          · rw [if_pos hdn] at hd
            injection hd with hd
            rw [← hd]
            exact Nat.lt_succ_self _
          · rw [if_neg hdn] at hd
            exact Nat.lt_succ_of_lt (hInv.2.2 d hd)
        · have hr2 : rsp.result = .openRc fn (!eng.pDir.isEmpty && fn.startsWith eng.pDir)
              (mkDbId (s.st.idSeq + 1) ptr) := by
            rw [hres, hD, heq, catchRes]
          exact openedIds_single_openRc hr2
    · by_cases hty2 : ev.type = "close"
      · have hD := dispatchEv_close eng s ev hty2
        have hcs := hClose_state s ev hInv
        rw [hD]
        refine ⟨?_, hcs.2.1, Or.inl ?_⟩
        · rw [hcs.2.2]
          exact hcs.1
        · refine openedIds_single_of_not_open ?_
          rw [hres, hD]
          rcases hcr : (hClose s ev).1 with e | pl
          · rw [catchRes]
            exact errorRc_not_openRc _ _ _ _
          · rw [catchRes]
            obtain ⟨f, i, hpl⟩ := hClose_not_openRc s ev pl hcr
            rw [hpl]
            intro f2 pe id hc
            cases hc
      · by_cases hty3 : ev.type = "exec"
        · have hD := dispatchEv_exec eng s ev hty3
          have hxs := hExec_state eng s ev
          rw [hD]
          refine ⟨?_, ?_, Or.inl ?_⟩
          · rw [hxs.2.2.2.2]
            exact KeysLt_of_fields hInv hxs.2.2.1 hxs.1 hxs.2.1
          · rw [hxs.2.2.2.1]
          · refine openedIds_single_of_not_open ?_
            rw [hres, hD]
            rcases hcr : (hExec eng s ev).result with e | pl
            · rw [catchRes]
              exact errorRc_not_openRc _ _ _ _
            · rw [catchRes]
              obtain ⟨rc, hpl⟩ := hExec_ok_execRc eng s ev pl hcr
              rw [hpl]
              intro f2 pe id hc
              cases hc
        · have hD := dispatchEv_other eng s ev hty1 hty2 hty3
          rw [hD.1]
          refine ⟨hInv, Nat.le_refl _, Or.inl ?_⟩
          refine openedIds_single_of_not_open ?_
          rcases hD.2 with hok | ⟨e, herr⟩
          · rw [hres, hok, catchRes]
            intro f2 pe id hc
            cases hc
          · rw [hres, herr, catchRes]
            exact errorRc_not_openRc _ _ _ _
  -- combine with the dispatcher tail
  have hseq2 : (dispatchEv eng s ev).2.1.st.idSeq ≤ (onmessage eng s ev t1 t2).1.st.idSeq := by
    rw [hst]
    have h1 := resolveDbId_idSeq_le ev.dbId rsp.result (dispatchEv eng s ev).2.1.st
    by_cases h3 : ((resolveDbId ev.dbId rsp.result (dispatchEv eng s ev).2.1.st).2).xfer.length != 0
    · rw [if_pos h3]
      exact h1
    · rw [if_neg h3]
      exact h1
  have hKfin : Inv (onmessage eng s ev t1 t2).1 := by
    rw [Inv, hst, hnO]
    have hK1 := KeysLt_resolveDbId ev.dbId rsp.result hbranch.1
    by_cases h3 : ((resolveDbId ev.dbId rsp.result (dispatchEv eng s ev).2.1.st).2).xfer.length != 0
    · rw [if_pos h3]
      exact KeysLt_clearXfer hK1
    · rw [if_neg h3]
      exact hK1
  have hIds : openedIds (onmessage eng s ev t1 t2).2 = openedIds [OutMsg.response rsp] := by
    rw [hm, openedIds_append, openedIds_rows_nil (dispatchEv_posted_rows eng s ev),
        List.nil_append]
  refine ⟨hKfin, Nat.le_trans hbranch.2.1 hseq2, ?_⟩
  rcases hbranch.2.2 with hnil | ⟨p, hone, hle⟩
  · left
    rw [hIds, hnil]
  · right
    exact ⟨p, by rw [hIds, hone], Nat.le_trans hle hseq2⟩

theorem run_openIds (eng : Engine) :
    ∀ (evs : List (Request × Nat × Nat)) (s : Sys), Inv s →
      (∀ id ∈ openedIds (run eng s evs).2, s.st.idSeq < seqOf id) ∧
      List.Pairwise (fun a b => seqOf a < seqOf b) (openedIds (run eng s evs).2) := by
  intro evs
  induction evs with
  | nil =>
    intro s _
    exact ⟨fun id hid => absurd hid (List.not_mem_nil _), List.Pairwise.nil⟩
  | cons evt rest ih =>
    intro s hInv
    rcases evt with ⟨ev, t1, t2⟩
    have hstep := step_facts eng s ev t1 t2 hInv
    have hruneq : (run eng s ((ev, t1, t2) :: rest)).2 =
        (onmessage eng s ev t1 t2).2 ++ (run eng (onmessage eng s ev t1 t2).1 rest).2 := by
      rw [run]
    have hih := ih (onmessage eng s ev t1 t2).1 hstep.1
    rw [hruneq, openedIds_append]
    rcases hstep.2.2 with hnil | ⟨p, hone, hle⟩
    · rw [hnil, List.nil_append]
      refine ⟨?_, hih.2⟩
      intro id hid
      exact Nat.lt_of_le_of_lt hstep.2.1 (hih.1 id hid)
    · rw [hone]
      constructor
      · intro id hid
        rcases List.mem_cons.mp hid with h1 | h1
        · rw [h1, seqOf_mkDbId]
          exact Nat.lt_succ_self _
        · exact Nat.lt_of_le_of_lt hstep.2.1 (hih.1 id h1)
      · rw [List.singleton_append]
        refine List.Pairwise.cons ?_ hih.2
        intro b hb
        rw [seqOf_mkDbId]
        exact Nat.lt_of_le_of_lt hle (hih.1 b hb)

/-- C5: over any served trace from the initial state, the handle identifier
returned by each successful `open` is distinct from every other one, even
though the engine may reuse pointers across close/open cycles. -/
theorem open_ids_distinct (eng : Engine) (evs : List (Request × Nat × Nat)) :
    List.Pairwise (fun a b => a ≠ b) (openedIds (run eng initSys evs).2) := by
  have h0 : Inv initSys := by
    refine ⟨?_, ?_, ?_⟩
    · intro kv hkv
      exact absurd hkv (List.not_mem_nil _)
    · intro p hp
      exact absurd hp (List.not_mem_nil _)
    · intro d hd
      cases hd
  have h := (run_openIds eng evs initSys h0).2
  refine h.imp ?_
  intro a b hlt heq
  rw [heq] at hlt
  exact Nat.lt_irrefl _ hlt

theorem exec_streaming_protocol_witness :
    ∃ rsp : Response,
      (onmessage engTwoRows sysOne
        { type := "exec",
          args := .obj { sql := some "q", callback := some (.tag "cb") } } 0 0).2 =
        rowMsgsSpec "cb" (engTwoRows.execBeh sysOne.nExecs).1 ++
        (if (engTwoRows.execBeh sysOne.nExecs).2 = none then
          [OutMsg.row { type := "cb", rowNumber := none, row := none }] else []) ++
        [OutMsg.response rsp] :=
  exec_streaming_protocol engTwoRows sysOne
    { type := "exec", args := .obj { sql := some "q", callback := some (.tag "cb") } }
    { sql := some "q", callback := some (.tag "cb") } "cb" 0 0 rfl rfl rfl
    (by decide) ⟨⟨0, 1000, "x.db"⟩, by decide⟩

theorem close_unresolved_noop_witness :
    ∃ rsp : Response,
      (onmessage engOk initSys { type := "close", dbId := some "gone" } 0 0).2 =
        [OutMsg.response rsp] ∧
      rsp.type = "close" ∧
      rsp.result = .closeRc none none ∧
      (onmessage engOk initSys { type := "close", dbId := some "gone" } 0 0).1.st.dbs =
        initSys.st.dbs ∧
      (onmessage engOk initSys { type := "close", dbId := some "gone" } 0 0).1.st.defaultDb =
        none ∧
      (onmessage engOk initSys { type := "close", dbId := some "gone" } 0 0).1.st.idMap =
        initSys.st.idMap ∧
      (onmessage engOk initSys { type := "close", dbId := some "gone" } 0 0).1.st.idSeq =
        initSys.st.idSeq ∧
      (onmessage engOk initSys { type := "close", dbId := some "gone" } 0 0).1.unlinked =
        initSys.unlinked :=
  close_unresolved_no_default_noop engOk initSys { type := "close", dbId := some "gone" }
    0 0 rfl (by decide) rfl

theorem resolve_precedence_witness :
    getMsgDb sysOne.st (some "db#1@1000") true =
      .ok (some { key := 0, pointer := 1000, filename := "x.db" }) ∧
    getMsgDb sysOne.st none true =
      .ok (some { key := 0, pointer := 1000, filename := "x.db" }) ∧
    getMsgDb ({} : WState) none true = .error (toss ["DB is not opened."]) :=
  ⟨(resolve_precedence sysOne.st (some "db#1@1000")).1 _ (by decide) (by decide),
   (resolve_precedence sysOne.st none).2.1 (by decide) _ (by decide) (by decide),
   (resolve_precedence {} none).2.2 (by decide) (by decide)⟩

theorem default_handle_discipline_witness :
    (wClose sysOne (some { key := 0, pointer := 1000, filename := "x.db" }) false).st.defaultDb
      = none ∧
    getMsgDb sysOne.st none true =
      .ok (some { key := 0, pointer := 1000, filename := "x.db" }) ∧
    (wOpen engOk initSys "y.db").2.st.defaultDb =
      some { key := 0, pointer := 1000, filename := "y.db" } :=
  ⟨(default_handle_discipline engOk sysOne "y.db" { key := 0, pointer := 1000, filename := "x.db" }
      { key := 5, pointer := 7, filename := "z" } false).2.2.1 (by decide),
   (default_handle_discipline engOk sysOne "y.db" { key := 0, pointer := 1000, filename := "x.db" }
      { key := 5, pointer := 7, filename := "z" } false).2.2.2.2 (by decide) (by decide),
   (default_handle_discipline engOk initSys "y.db" { key := 0, pointer := 1000, filename := "x.db" }
      { key := 5, pointer := 7, filename := "z" } false).1 rfl
     { key := 0, pointer := 1000, filename := "y.db" } (wOpen engOk initSys "y.db").2 (by decide)⟩

theorem exec_stmt_mode_fails_witness :
    ∃ rsp : Response,
      (onmessage engOk initSys
        { type := "exec", args := ReqArgs.obj { rowMode := some "stmt" } } 0 0).2 =
        [OutMsg.response rsp] ∧
      rsp.type = "error" ∧
      rsp.result = .errorRc "exec"
        "Invalid rowMode for 'exec': stmt mode does not work in the Worker API."
        "Error" { type := "exec", args := ReqArgs.obj { rowMode := some "stmt" } } :=
  exec_stmt_mode_fails engOk initSys
    { type := "exec", args := ReqArgs.obj { rowMode := some "stmt" } }
    { rowMode := some "stmt" } 0 0 rfl rfl rfl

theorem open_engine_failure_witness :
    hOpen engOpenFail initSys { type := "open", args := .obj { filename := some "x.db" } } =
      (.error { name := "SQLite3Error", message := "unable to open database file" },
       { initSys with nOpens := initSys.nOpens + 1 }) ∧
    (onmessage engOpenFail initSys
      { type := "open", args := .obj { filename := some "x.db" } } 0 0).1.st.dbs =
      initSys.st.dbs ∧
    (onmessage engOpenFail initSys
      { type := "open", args := .obj { filename := some "x.db" } } 0 0).1.st.defaultDb =
      initSys.st.defaultDb ∧
    (∃ rsp : Response,
      (onmessage engOpenFail initSys
        { type := "open", args := .obj { filename := some "x.db" } } 0 0).2 =
        [OutMsg.response rsp] ∧
      rsp.type = "error" ∧
      rsp.result = .errorRc "open" "unable to open database file" "SQLite3Error"
        { type := "open", args := .obj { filename := some "x.db" } }) :=
  open_engine_failure_preserves_registry engOpenFail initSys
    { type := "open", args := .obj { filename := some "x.db" } }
    { filename := some "x.db" }
    { name := "SQLite3Error", message := "unable to open database file" } 0 0
    rfl rfl rfl rfl

theorem exec_callback_restored_witness :
    ∃ (rsp : Response) (pre : List OutMsg),
      (onmessage engRowThenFail sysOne
        { type := "exec",
          args := .obj { sql := some "q", callback := some (.tag "cb") } } 0 0).2 =
        pre ++ [OutMsg.response rsp] ∧
      ((∃ rc : JObj, rsp.result = .execRc rc ∧ rc.callback = some (.tag "cb")) ∨
       (∃ (rc : JObj) (m c : String),
         rsp.result = .errorRc "exec" m c
           { type := "exec", args := .obj rc, dbId := none, messageId := none,
             departureTime := none } ∧ rc.callback = some (.tag "cb"))) :=
  exec_callback_restored engRowThenFail sysOne
    { type := "exec", args := .obj { sql := some "q", callback := some (.tag "cb") } }
    { sql := some "q", callback := some (.tag "cb") } "cb" 0 0 rfl rfl rfl

end Worker1
